import Mathlib

/-!
Verification model of `src/proxy/src/wsproxysession.cpp` (Pushpin's WebSocket
proxy session).  Byte strings (`QByteArray`) are modelled as `List Char`,
machine `int` counters as `Int`, and the Qt signal/slot event loop as an
explicit step function on a session state, driven by an event trace.
Frames written to the two transports and messages handed to the control
session are recorded in append-only logs so that routing behaviour is
observable.
-/

namespace WsProxy

/-- Byte string, modelling `QByteArray` (and `QString` where only emptiness
and equality matter). -/
abbrev BString := List Char

/-- `PENDING_FRAMES_MAX` from line 36 of the source. -/
def PENDING_FRAMES_MAX : Int := 100

/-- WebSocket frame types (`ZWebSocket::Frame::Type`). -/
inductive FrameType where
  | Continuation
  | Text
  | Binary
  | Ping
  | Pong
  | Close
deriving DecidableEq, Repr

/-- A WebSocket frame (`ZWebSocket::Frame`): type, payload, `more` flag. -/
structure Frame where
  ftype : FrameType
  data : BString
  more : Bool
deriving DecidableEq, Repr

/-- Transport-level connection phase of a `ZWebSocket`
(only `Connected` and `Closing` are inspected by the session core). -/
inductive SockPhase where
  | SConnecting
  | SConnected
  | SClosing
deriving DecidableEq, Repr

/-- `ZWebSocket::ErrorCondition` values inspected by `out_error`
(`ErrorGeneric` and `ErrorPolicy` stand for the conditions that fall into
the `default` branch of the switch). -/
inductive ErrorCondition where
  | ErrorGeneric
  | ErrorPolicy
  | ErrorConnect
  | ErrorConnectTimeout
  | ErrorTls
  | ErrorRejected
deriving DecidableEq, Repr

/-- The modelled part of a `ZWebSocket`: the frames available for reading and
the transport phase.  Frames written by the session are tracked in session
level logs so that they survive socket deletion. -/
structure Sock where
  readQueue : List Frame
  sstate : SockPhase
deriving DecidableEq, Repr

/-- One candidate origin (`DomainMap::Target`). -/
structure Target where
  connectHost : BString
  connectPort : Int
  ssl : Bool
  trusted : Bool
  insecure : Bool
  host : BString
  subChannel : BString
deriving DecidableEq, Repr

/-- The routing entry returned by the domain map (`DomainMap::Entry`):
only the fields the session core consumes. -/
structure Entry where
  entryPrefix : BString
  targets : List Target
deriving DecidableEq, Repr

/-- An HTTP response delivered to the client transport: either
`respondError(code, reason, headers, body)` or
`respondSuccess(reason, headers)`. -/
inductive ClientResponse where
  | error (code : Int) (reason : BString) (headers : List (BString × BString)) (body : BString)
  | success (reason : BString) (headers : List (BString × BString))
deriving DecidableEq, Repr

/-! ## Extension-parameter parsing (`parseParams`, `getExtension`) -/

/-- Whitespace bytes removed by `QByteArray::trimmed`. -/
def isSpaceB (c : Char) : Bool :=
  c == ' ' || c == '\t' || c == '\n' || c == '\r' || c == '\x0b' || c == '\x0c'

/-- `QByteArray::trimmed`: strip leading and trailing whitespace. -/
def trimB (b : BString) : BString :=
  ((b.dropWhile isSpaceB).reverse.dropWhile isSpaceB).reverse

/-- Scan of `findNext` (source lines 47-61) over the byte suffix from the
current index: `k` is the absolute index of the suffix head. -/
def findNextFromGo (cs : List Char) : List Char → Nat → Option Nat
  | [], _ => none
  | c :: rest, k => if cs.contains c then some k else findNextFromGo cs rest (k + 1)

/-- The `findNext` helper (source lines 47-61): first index `n ≥ start`
whose byte is in `cs`; `none` models the C++ return value `-1`. -/
def findNextFrom (inp : BString) (cs : List Char) (n : Nat) : Option Nat :=
  findNextFromGo cs (inp.drop n) n

/-- `QByteArray::indexOf(c, from)`, via `findNextFrom`. -/
def indexOfFrom (inp : BString) (c : Char) (n : Nat) : Option Nat :=
  findNextFrom inp [c] n

/-- Scan of the quoted-value loop of `parseParams` (source lines 88-122)
over the byte suffix from the current index: accumulate `val`, honouring
backslash escapes; `none` models `*ok = false` (a backslash as the final
byte, or an unterminated quoted string); on success returns the value and
the absolute index one past the closing quote. -/
def scanQuotedGo : List Char → Nat → BString → Option (BString × Nat)
  | [], _, _ => none
  | c :: rest, k, val =>
    if c == '\\' then
      match rest with
      | [] => none
      | e :: rest2 => scanQuotedGo rest2 (k + 2) (val ++ [e])
    else if c == '\"' then some (val, k + 1)
    else scanQuotedGo rest (k + 1) (val ++ [c])

/-- The quoted-value scan from absolute index `n` (just past the opening
quote). -/
def scanQuoted (inp : BString) (n : Nat) (val : BString) : Option (BString × Nat) :=
  scanQuotedGo (inp.drop n) n val

/-- Parameter mapping (`QHash<QByteArray, QByteArray>`). -/
abbrev Params := List (BString × BString)

/-- `out[var] = val` on a `QHash`: replace any existing binding. -/
def hashInsert (h : Params) (k v : BString) : Params :=
  h.filter (fun p => !(p.1 == k)) ++ [(k, v)]

/-- The main loop of `parseParams` (source lines 63-162), index based like
the C++.  `none` models `*ok = false` (in which case the C++ also returns
an empty hash that the caller discards).  The loop advances `start` by at
least one byte per iteration, so the structural fuel `inp.length` supplied
by `parseParams` never runs out while `start < inp.length`
(`parseParamsLoop_fuel` below makes this exact). -/
def parseParamsLoop (inp : BString) : Nat → Nat → Params → Option Params
  | 0, _, out => some out
  | fuel + 1, start, out =>
    if start < inp.length then
      match findNextFrom inp ['=', ';'] start with
      | some a0 =>
        let var := trimB ((inp.drop start).take (a0 - start))
        if inp[a0]? == some '=' then
          if a0 + 1 ≥ inp.length then none
          else
            let a1 := a0 + 1
            if inp[a1]? == some '\"' then
              match scanQuoted inp (a1 + 1) [] with
              | none => none
              | some (val, a2) =>
                match indexOfFrom inp ';' a2 with
                | some a3 => parseParamsLoop inp fuel (a3 + 1) (hashInsert out var val)
                | none => some (hashInsert out var val)
            else
              match indexOfFrom inp ';' a1 with
              | some a3 =>
                parseParamsLoop inp fuel (a3 + 1)
                  (hashInsert out var (trimB ((inp.drop a1).take (a3 - a1))))
              | none => some (hashInsert out var (trimB (inp.drop a1)))
        else
          parseParamsLoop inp fuel (a0 + 1) (hashInsert out var [])
      | none => some (hashInsert out (trimB (inp.drop start)) [])
    else some out

/-- `parseParams` (source lines 63-162): `none` models `*ok == false`. -/
def parseParams (inp : BString) : Option Params :=
  parseParamsLoop inp inp.length 0 []

/-- `HttpExtension` (source lines 38-45). -/
structure HttpExtension where
  name : BString := []
  params : Params := []
deriving DecidableEq, Repr

/-- `HttpExtension::isNull` (source line 41). -/
def HttpExtension.isNull (e : HttpExtension) : Bool := e.name == []

/-- `getExtension` (source lines 164-199). -/
def getExtension (extStrings : List BString) (name : BString) : HttpExtension :=
  match extStrings with
  | [] => {}
  | ext :: rest =>
    let a0 := indexOfFrom ext ';' 0
    let found :=
      match a0 with
      | some a => trimB (ext.take a) == name
      | none => ext == name
    if found then
      match a0 with
      | some a =>
        match parseParams (ext.drop (a + 1)) with
        | some ps => { name := name, params := ps }
        | none => {}
      | none => { name := name, params := [] }
    else getExtension rest name

/-! ## Session state -/

/-- The session state machine phases (`WsProxySession::Private::State`). -/
inductive PState where
  | Idle
  | Connecting
  | Connected
  | Closing
deriving DecidableEq, Repr

/-- The routing destination of one upstream frame in `tryReadOut`:
written to the client (`inSock->writeFrame`), handed to the control session
(`wsControl->sendGripMessage`), or dropped. -/
inductive Route where
  | ToClient
  | ToControl
  | Dropped
deriving DecidableEq, Repr

/-- State of one `WsProxySession::Private`, plus append-only observation
logs: `outWrittenLog` records every frame ever written to `outSock`,
`inWrittenLog` every frame ever written to `inSock`, `gripSentLog` every
payload handed to `wsControl->sendGripMessage`, `clientResponses` every
`respondError`/`respondSuccess` on the client socket, and
`connectAttempts` every target an outbound connection was started to.
`assertFailed` records a violation of `reject`'s
`assert(state == Connecting)`. -/
structure SessionState where
  state : PState
  inSock : Option Sock
  outSock : Option Sock
  wsControlManager : Bool
  wsControl : Bool
  inPending : Int
  outPending : Int
  outReadInProgress : Option FrameType
  channelPrefix : BString
  targets : List Target
  messagePrefix : BString
  detached : Bool
  subChannel : BString
  outWrittenLog : List Frame
  inWrittenLog : List Frame
  gripSentLog : List BString
  clientResponses : List ClientResponse
  connectAttempts : List Target
  finishedCount : Nat
  assertFailed : Bool
deriving DecidableEq, Repr

/-- Constructor state (source lines 240-257): `wsControlManager` is the
(possibly null) manager handed to the session. -/
def initState (mgr : Bool) : SessionState :=
  { state := .Idle
    inSock := none
    outSock := none
    wsControlManager := mgr
    wsControl := false
    inPending := 0
    outPending := 0
    outReadInProgress := none
    channelPrefix := []
    targets := []
    messagePrefix := []
    detached := false
    subChannel := []
    outWrittenLog := []
    inWrittenLog := []
    gripSentLog := []
    clientResponses := []
    connectAttempts := []
    finishedCount := 0
    assertFailed := false }

/-- The control-message marker `"c:"` (source line 427). -/
def cMarker : BString := ['c', ':']

/-- The default message marker `"m:"` (source line 540). -/
def mMarker : BString := ['m', ':']

/-- `inSock->writeFrame(f); ++inPending;` — log the frame and bump the
counter. -/
def writeInFrame (s : SessionState) (f : Frame) : SessionState :=
  { s with inWrittenLog := s.inWrittenLog ++ [f], inPending := s.inPending + 1 }

/-- `outSock->writeFrame(f); ++outPending;`. -/
def writeOutFrame (s : SessionState) (f : Frame) : SessionState :=
  { s with outWrittenLog := s.outWrittenLog ++ [f], outPending := s.outPending + 1 }

/-- The body of the `tryReadOut` loop for one frame read off `outSock`
(source lines 411-462), detached check included. -/
def processOutFrame (s : SessionState) (f : Frame) : SessionState :=
  if s.detached then s
  else if f.ftype == .Text || f.ftype == .Binary || f.ftype == .Continuation then
    -- we are skipping the rest of this message
    if f.ftype == .Continuation && s.outReadInProgress == none then s
    else
      let s1 := if !(f.ftype == .Continuation) then
          { s with outReadInProgress := some f.ftype } else s
      let s2 :=
        if s1.wsControl then
          if f.ftype == .Text && cMarker.isPrefixOf f.data then
            -- grip messages must only be one frame
            if !f.more then { s1 with gripSentLog := s1.gripSentLog ++ [f.data.drop 2] }
            else { s1 with outReadInProgress := none } -- ignore rest of message
          else if !(f.ftype == .Continuation) && s1.messagePrefix.isPrefixOf f.data then
            writeInFrame s1 f
          else if f.ftype == .Continuation then
            writeInFrame s1 f
          else s1
        else writeInFrame s1 f
      if !f.more then { s2 with outReadInProgress := none } else s2
  else
    -- always relay non-content frames
    writeInFrame s f

/-- The body of the `tryReadIn` loop for one frame read off `inSock`
(source lines 397-404). -/
def processInFrame (s : SessionState) (f : Frame) : SessionState :=
  if s.detached then s
  else writeOutFrame s f

/-- The `tryReadOut` while loop over the frames available on `outSock`;
returns the final state and the frames left unread. -/
def tryReadOutLoop (s : SessionState) : List Frame → SessionState × List Frame
  | [] => (s, [])
  | f :: rest =>
    if s.inPending < PENDING_FRAMES_MAX then tryReadOutLoop (processOutFrame s f) rest
    else (s, f :: rest)

/-- The `tryReadIn` while loop over the frames available on `inSock`. -/
def tryReadInLoop (s : SessionState) : List Frame → SessionState × List Frame
  | [] => (s, [])
  | f :: rest =>
    if s.outPending < PENDING_FRAMES_MAX then tryReadInLoop (processInFrame s f) rest
    else (s, f :: rest)

/-- `tryReadOut` (source lines 407-464).  When `outSock` is null the loop
guard `outSock->framesAvailable() > 0` can never fire, so the call is a
no-op (totalising what would be a null dereference in C++). -/
def tryReadOut (s : SessionState) : SessionState :=
  match s.outSock with
  | none => s
  | some o =>
    let p := tryReadOutLoop s o.readQueue
    { p.1 with outSock := some { o with readQueue := p.2 } }

/-- `tryReadIn` (source lines 393-405), totalised the same way. -/
def tryReadIn (s : SessionState) : SessionState :=
  match s.inSock with
  | none => s
  | some i =>
    let p := tryReadInLoop s i.readQueue
    { p.1 with inSock := some { i with readQueue := p.2 } }

/-- `reject(code, reason, headers, body)` (source lines 380-386).  The
`assert(state == Connecting)` is recorded in `assertFailed`. -/
def reject (s : SessionState) (code : Int) (reason : BString)
    (headers : List (BString × BString)) (body : BString) : SessionState :=
  { s with
    assertFailed := s.assertFailed || !(s.state == .Connecting)
    state := .Closing
    clientResponses := s.clientResponses ++ [.error code reason headers body] }

/-- Body of the 502 rejection `"Error while proxying to origin."`: the
`reject(int, QString, QString)` overload (source lines 388-391) appends a
newline to the message. -/
def proxyErrorBody : BString := "Error while proxying to origin.\n".toList

/-- `"Bad Gateway"`. -/
def badGatewayReason : BString := "Bad Gateway".toList

/-- `tryNextTarget` (source lines 336-378): pop the head target (rejecting
with 502 when none remain), record the connection attempt, and create a
fresh connecting `outSock`.  URI scheme/host rewriting and header passing
happen inside the external transport and are not observable here beyond
`connectAttempts`. -/
def tryNextTarget (s : SessionState) : SessionState :=
  match s.targets with
  | [] => reject s 502 badGatewayReason [] proxyErrorBody
  | t :: rest =>
    { s with
      targets := rest
      subChannel := t.subChannel
      outSock := some { readQueue := [], sstate := .SConnecting }
      connectAttempts := s.connectAttempts ++ [t] }

/-- `start(sock)` (source lines 276-334): attach the client socket, move to
`Connecting`, and either reject (no route) or try the first target.
Header manipulation and the grip extension offer are delegated to external
collaborators and have no further observable effect in this core. -/
def start (s : SessionState) (host : BString) (entry : Option Entry) : SessionState :=
  let s0 := { s with state := .Connecting,
                     inSock := some { readQueue := [], sstate := .SConnecting } }
  match entry with
  | none =>
    reject s0 502 badGatewayReason []
      ("No route for host: ".toList ++ host ++ ['\n'])
  | some en => tryNextTarget { s0 with channelPrefix := en.entryPrefix, targets := en.targets }

/-- `tryFinish` (source lines 466-473): when both sockets are gone, run
`cleanup()` (which also deletes `wsControl`) and emit the finished signal. -/
def tryFinish (s : SessionState) : SessionState :=
  if s.inSock == none && s.outSock == none then
    { s with wsControl := false, finishedCount := s.finishedCount + 1 }
  else s

/-- Set the transport phase of an optional socket. -/
def setPhase (o : Option Sock) (p : SockPhase) : Option Sock :=
  o.map (fun k => { k with sstate := p })

/-- `outSock->close()`. -/
def closeOut (s : SessionState) : SessionState :=
  { s with outSock := setPhase s.outSock .SClosing }

/-- `inSock->close()`. -/
def closeIn (s : SessionState) : SessionState :=
  { s with inSock := setPhase s.inSock .SClosing }

/-- Whether an optional socket exists and is not `Closing`. -/
def sockNotClosing (o : Option Sock) : Bool :=
  match o with
  | some k => !(k.sstate == .SClosing)
  | none => false

/-- `in_readyRead` (source lines 476-480). -/
def in_readyRead (s : SessionState) : SessionState :=
  if !s.detached &&
      (match s.outSock with
       | some o => o.sstate == .SConnected
       | none => false) then
    tryReadIn s
  else s

/-- `in_framesWritten(count)` (source lines 482-488). -/
def in_framesWritten (s : SessionState) (count : Int) : SessionState :=
  let s1 := { s with inPending := s.inPending - count }
  if !s1.detached then tryReadOut s1 else s1

/-- `in_peerClosed` (source lines 490-494). -/
def in_peerClosed (s : SessionState) : SessionState :=
  if !s.detached && sockNotClosing s.outSock then closeOut s else s

/-- `in_closed` (source lines 496-505). -/
def in_closed (s : SessionState) : SessionState :=
  let s1 := { s with inSock := none }
  let s2 := if !s1.detached && sockNotClosing s1.outSock then closeOut s1 else s1
  tryFinish s2

/-- `in_error` (source lines 507-519). -/
def in_error (s : SessionState) : SessionState :=
  let s1 := { s with inSock := none }
  let s2 := if !s1.detached then { s1 with outSock := none } else s1
  tryFinish s2

/-- The header name `Sec-WebSocket-Extensions`. -/
def secWsExtName : BString := "Sec-WebSocket-Extensions".toList

/-- ASCII lower-casing, for the case-insensitive header-name comparison done
by `HttpHeaders::takeAll`. -/
def lowerC (c : Char) : Char :=
  if 'A' ≤ c && c ≤ 'Z' then Char.ofNat (c.toNat + 32) else c

/-- Case-insensitive header-name equality. -/
def headerNameEq (a b : BString) : Bool := a.map lowerC == b.map lowerC

/-- The values removed by `headers.takeAll("Sec-WebSocket-Extensions")`. -/
def wsExtValues (hdrs : List (BString × BString)) : List BString :=
  (hdrs.filter (fun h => headerNameEq h.1 secWsExtName)).map Prod.snd

/-- The response headers after `takeAll` removed the extension values. -/
def stripWsExt (hdrs : List (BString × BString)) : List (BString × BString) :=
  hdrs.filter (fun h => !headerNameEq h.1 secWsExtName)

/-- The grip extension name. -/
def gripName : BString := "grip".toList

/-- The `message-prefix` parameter key. -/
def mpKey : BString := "message-prefix".toList

/-- The JSON subscribe message synthesised in `out_connected` (source
lines 556-560).  The exact byte layout comes from the external
`QJson::Serializer`; only its presence/absence matters to the claims. -/
def subscribeMsg (ch : BString) : BString :=
  "\x7b\"type\": \"subscribe\", \"channel\": \"".toList ++ ch ++ "\"\x7d".toList

/-- `out_connected` (source lines 521-569) before its final `tryReadIn`:
move to `Connected`, strip the origin's extension headers, activate GRIP
when the `grip` extension is present or the target forced a `subChannel`,
and complete the client handshake. -/
def out_connected_core (s : SessionState) (reason : BString)
    (hdrs : List (BString × BString)) : SessionState :=
  let s0 := { s with state := .Connected, outSock := setPhase s.outSock .SConnected }
  let grip := getExtension (wsExtValues hdrs) gripName
  let s1 :=
    if !grip.isNull || !(s0.subChannel == []) then
      let s2 :=
        if !grip.isNull then
          { s0 with messagePrefix :=
              match grip.params.lookup mpKey with
              | some v => v
              | none => mMarker }
        else s0
      if s2.wsControlManager then
        let s3 := { s2 with wsControl := true }
        if !(s3.subChannel == []) then
          { s3 with gripSentLog := s3.gripSentLog ++ [subscribeMsg s3.subChannel] }
        else s3
      else s2
    else s0
  { s1 with
    clientResponses := s1.clientResponses ++ [.success reason (stripWsExt hdrs)]
    inSock := setPhase s1.inSock .SConnected }

/-- `out_connected` (source lines 521-569): the GRIP/handshake processing
above, then "send any pending frames" via `tryReadIn`. -/
def out_connected (s : SessionState) (reason : BString)
    (hdrs : List (BString × BString)) : SessionState :=
  tryReadIn (out_connected_core s reason hdrs)

/-- `out_readyRead` (source lines 571-574). -/
def out_readyRead (s : SessionState) : SessionState := tryReadOut s

/-- `out_framesWritten(count)` (source lines 576-582). -/
def out_framesWritten (s : SessionState) (count : Int) : SessionState :=
  let s1 := { s with outPending := s.outPending - count }
  if !s1.detached then tryReadIn s1 else s1

/-- `out_peerClosed` (source lines 584-588). -/
def out_peerClosed (s : SessionState) : SessionState :=
  if !s.detached && sockNotClosing s.inSock then closeIn s else s

/-- `out_closed` (source lines 590-599). -/
def out_closed (s : SessionState) : SessionState :=
  let s1 := { s with outSock := none }
  let s2 := if !s1.detached && sockNotClosing s1.inSock then closeIn s1 else s1
  tryFinish s2

/-- `out_error` (source lines 601-649).  The event carries the transport's
`errorCondition()` and, for the `Rejected` case, the origin's response. -/
def out_error (s : SessionState) (cond : ErrorCondition) (code : Int)
    (reason : BString) (hdrs : List (BString × BString)) (body : BString) : SessionState :=
  if s.detached then
    tryFinish { s with outSock := none }
  else if s.state == .Connecting then
    match cond with
    | .ErrorConnect | .ErrorConnectTimeout | .ErrorTls =>
      tryNextTarget { s with outSock := none }
    | .ErrorRejected =>
      let r := reject s code reason hdrs body
      { r with outSock := none }
    | _ =>
      let r := reject s 502 badGatewayReason [] proxyErrorBody
      { r with outSock := none }
  else
    tryFinish { s with inSock := none, outSock := none }

/-- The content type string `"binary"`. -/
def binaryCT : BString := "binary".toList

/-- `wsControl_sendEventReceived` (source lines 651-662). -/
def wsControl_sendEventReceived (s : SessionState) (contentType message : BString) :
    SessionState :=
  match s.inSock with
  | some i =>
    if !(i.sstate == .SClosing) then
      writeInFrame s
        (Frame.mk (if contentType == binaryCT then FrameType.Binary else FrameType.Text)
          message false)
    else s
  | none => s

/-- `wsControl_detachEventReceived` (source lines 664-674). -/
def wsControl_detachEventReceived (s : SessionState) : SessionState :=
  -- if already detached, do nothing
  if s.detached then s
  else
    let s1 := { s with detached := true }
    if sockNotClosing s1.outSock then closeOut s1 else s1

/-! ## Event traces -/

/-- Events deliverable to the session: its slots, plus the environment
actions that make transport frames available. -/
inductive Ev where
  | evStart (host : BString) (entry : Option Entry)
  | evInReadyRead
  | evInFramesWritten (count : Int)
  | evInPeerClosed
  | evInClosed
  | evInError
  | evOutConnected (reason : BString) (hdrs : List (BString × BString))
  | evOutReadyRead
  | evOutFramesWritten (count : Int)
  | evOutPeerClosed
  | evOutClosed
  | evOutError (cond : ErrorCondition) (code : Int) (reason : BString)
      (hdrs : List (BString × BString)) (body : BString)
  | evCtlSendEvent (contentType : BString) (message : BString)
  | evCtlDetachEvent
  | evArriveIn (f : Frame)
  | evArriveOut (f : Frame)

/-- Push a frame onto a socket's read queue. -/
def pushFrame (o : Option Sock) (f : Frame) : Option Sock :=
  o.map (fun k => { k with readQueue := k.readQueue ++ [f] })

/-- One event step. -/
def step (e : Ev) (s : SessionState) : SessionState :=
  match e with
  | .evStart host entry => start s host entry
  | .evInReadyRead => in_readyRead s
  | .evInFramesWritten n => in_framesWritten s n
  | .evInPeerClosed => in_peerClosed s
  | .evInClosed => in_closed s
  | .evInError => in_error s
  | .evOutConnected reason hdrs => out_connected s reason hdrs
  | .evOutReadyRead => out_readyRead s
  | .evOutFramesWritten n => out_framesWritten s n
  | .evOutPeerClosed => out_peerClosed s
  | .evOutClosed => out_closed s
  | .evOutError cond code reason hdrs body => out_error s cond code reason hdrs body
  | .evCtlSendEvent ct msg => wsControl_sendEventReceived s ct msg
  | .evCtlDetachEvent => wsControl_detachEventReceived s
  | .evArriveIn f => { s with inSock := pushFrame s.inSock f }
  | .evArriveOut f => { s with outSock := pushFrame s.outSock f }

/-- Whether an event can physically occur in a state: a transport signal
needs its socket to exist, `start` is called exactly once on a fresh
session, a `framesWritten` acknowledgement covers only frames actually
written and not yet acknowledged, and control events require the control
session to exist. -/
def validEv (e : Ev) (s : SessionState) : Bool :=
  match e with
  | .evStart _ _ => s.inSock == none && s.state == .Idle
  | .evInReadyRead | .evInPeerClosed | .evInClosed | .evInError => s.inSock.isSome
  | .evInFramesWritten n => s.inSock.isSome && 0 < n && n ≤ s.inPending
  | .evOutConnected _ _ => s.outSock.isSome && s.inSock.isSome && s.state == .Connecting
  | .evOutReadyRead | .evOutPeerClosed | .evOutClosed => s.outSock.isSome
  | .evOutFramesWritten n => s.outSock.isSome && 0 < n && n ≤ s.outPending
  | .evOutError _ _ _ _ _ => s.outSock.isSome
  | .evCtlSendEvent _ _ => s.wsControl
  | .evCtlDetachEvent => s.wsControl
  | .evArriveIn _ => s.inSock.isSome
  | .evArriveOut _ => s.outSock.isSome

/-- Run a trace of events. -/
def runTrace (s : SessionState) : List Ev → SessionState
  | [] => s
  | e :: es => runTrace (step e s) es

/-- A trace is valid from `s` when every event is valid in the state where
it is delivered. -/
def validTrace (s : SessionState) : List Ev → Bool
  | [] => true
  | e :: es => validEv e s && validTrace (step e s) es

/-- Number of control `sendEvent`s in a trace. -/
def sendCount : List Ev → Nat
  | [] => 0
  | .evCtlSendEvent _ _ :: es => sendCount es + 1
  | _ :: es => sendCount es

/-! ## Routing observations -/

/-- The routing decision `tryReadOut` makes for one frame, read off the same
branch structure as `processOutFrame` (source lines 413-462). -/
def routeOfFrame (s : SessionState) (f : Frame) : Route :=
  if s.detached then .Dropped
  else if f.ftype == .Text || f.ftype == .Binary || f.ftype == .Continuation then
    if f.ftype == .Continuation && s.outReadInProgress == none then .Dropped
    else if s.wsControl then
      if f.ftype == .Text && cMarker.isPrefixOf f.data then
        if !f.more then .ToControl else .Dropped
      else if !(f.ftype == .Continuation) && s.messagePrefix.isPrefixOf f.data then .ToClient
      else if f.ftype == .Continuation then .ToClient
      else .Dropped
    else .ToClient
  else .ToClient

/-- Routing decisions for a sequence of frames pulled consecutively from
`outSock`, threading the state through `processOutFrame`. -/
def msgRoutes (s : SessionState) : List Frame → List Route
  | [] => []
  | f :: fs => routeOfFrame s f :: msgRoutes (processOutFrame s f) fs

/-- More-flag chain of one WebSocket message: every fragment except the last
has `more = true`, the last has `more = false`. -/
def chainOK : Frame → List Frame → Bool
  | f, [] => !f.more
  | f, g :: fs => f.more && chainOK g fs

/-- A well-formed upstream message: one Text or Binary head fragment,
Continuation fragments after it, correct `more` flags. -/
def wfMsg : List Frame → Bool
  | [] => false
  | h :: t =>
    (h.ftype == .Text || h.ftype == .Binary) &&
      t.all (fun f => f.ftype == .Continuation) && chainOK h t

/-- The value `outReadInProgress` holds after `processOutFrame` handles
`f`, read off the same branch structure (lines 419-455 of the source). -/
def oripAfter (s : SessionState) (f : Frame) : Option FrameType :=
  if s.detached then s.outReadInProgress
  else if f.ftype == .Text || f.ftype == .Binary || f.ftype == .Continuation then
    if f.ftype == .Continuation && s.outReadInProgress == none then s.outReadInProgress
    else if !f.more then none
    else if s.wsControl && (f.ftype == .Text && cMarker.isPrefixOf f.data) then none
    else if !(f.ftype == .Continuation) then some f.ftype
    else s.outReadInProgress
  else s.outReadInProgress

/-- Flag sanity: `detached` or an attached control session can only exist
once the handshake completed (state `Connected`, possibly later observed
while a reject moved it to `Closing`). -/
def GoodFlags (s : SessionState) : Prop :=
  s.detached = true ∨ s.wsControl = true →
    s.state = PState.Connected ∨ s.state = PState.Closing

/-! ## Concrete fixtures used in witnesses and counterexamples -/

/-- A target forcing subscription to channel `"ch"`. -/
def wTarget : Target := ⟨['o'], 80, false, false, false, [], ['c', 'h']⟩

/-- A target with no forced subscription channel. -/
def wTargetPlain : Target := ⟨['o'], 80, false, false, false, [], []⟩

/-- A routing entry with the single target `wTarget`. -/
def wEntry : Entry := ⟨[], [wTarget]⟩

/-- A routing entry with two plain targets. -/
def wEntry2 : Entry := ⟨[], [wTargetPlain, wTargetPlain]⟩

/-- A mid-stream session: connected, GRIP active, `messagePrefix = "m:"`.
Reached e.g. after `start`, `out_connected` with a grip extension, with the
observation logs cleared for readability of the statements below. -/
def sMid : SessionState :=
  { initState true with
    state := .Connected
    inSock := some { readQueue := [], sstate := .SConnected }
    outSock := some { readQueue := [], sstate := .SConnected }
    wsControl := true
    messagePrefix := mMarker }

/-- `sMid` with `q` available for reading on the origin socket. -/
def putOut (s : SessionState) (q : List Frame) : SessionState :=
  { s with outSock := some { readQueue := q, sstate := .SConnected } }

/-- Replace `outSock` with a socket holding read queue `q`. -/
def withOutQueue (s : SessionState) (o : Sock) (q : List Frame) : SessionState :=
  { s with outSock := some { o with readQueue := q } }

/-- A two-fragment message whose Text head starts with neither `"c:"` nor
`"m:"`. -/
def msgNoMarker : List Frame :=
  [⟨.Text, ['x'], true⟩, ⟨.Continuation, ['y'], false⟩]

/-- Trace: start, origin accepts (GRIP via subChannel), then 101 control
`sendEvent`s. -/
def cxTraceC2 : List Ev :=
  [Ev.evStart ['h'] (some wEntry), Ev.evOutConnected ['O', 'K'] []] ++
    List.replicate 101 (Ev.evCtlSendEvent [] ['x'])

/-- A connecting session whose chosen target forces `subChannel = "ch"`,
with a non-null control manager. -/
def sSub : SessionState :=
  { initState true with
    state := .Connecting
    inSock := some { readQueue := [], sstate := .SConnecting }
    outSock := some { readQueue := [], sstate := .SConnecting }
    subChannel := ['c', 'h'] }

/-- Response headers advertising `grip; message-prefix=p:`. -/
def wGripHdr : List (BString × BString) :=
  [(secWsExtName, "grip; message-prefix=p:".toList)]

/-- A session in the `Connecting` phase with both sockets attached. -/
def sConn : SessionState :=
  { initState true with
    state := .Connecting
    inSock := some { readQueue := [], sstate := .SConnecting }
    outSock := some { readQueue := [], sstate := .SConnecting } }

/-- Trace: start, origin accepts (GRIP via subChannel), detach. -/
def trDetach : List Ev :=
  [Ev.evStart ['h'] (some wEntry), Ev.evOutConnected ['O', 'K'] [], Ev.evCtlDetachEvent]

/-! ## Helper lemmas -/

/-- Position bounds of the `findNext` scan. -/
theorem findNextFromGo_bounds {cs : List Char} : ∀ {l : List Char} {k m : Nat},
    findNextFromGo cs l k = some m → k ≤ m ∧ m < k + l.length := by
  intro l
  induction l with
  | nil => intro k m h; exact absurd h (by simp [findNextFromGo])
  | cons c rest ih =>
    intro k m h
    simp only [findNextFromGo] at h
    by_cases hc : cs.contains c = true
    · rw [if_pos hc] at h
      cases h
      simp
    · rw [if_neg hc] at h
      have := ih h
      simp only [List.length_cons]
      omega

/-- Position bounds of `findNextFrom`. -/
theorem findNextFrom_bounds {inp : BString} {cs : List Char} {n m : Nat}
    (h : findNextFrom inp cs n = some m) : n ≤ m ∧ m < inp.length := by
  have hb := findNextFromGo_bounds h
  have hl : (inp.drop n).length = inp.length - n := List.length_drop n inp
  omega

/-- Position bounds of `indexOfFrom`. -/
theorem indexOfFrom_bounds {inp : BString} {c : Char} {n m : Nat}
    (h : indexOfFrom inp c n = some m) : n ≤ m ∧ m < inp.length :=
  findNextFrom_bounds h

/-- Position bounds of the quoted-value scan. -/
theorem scanQuotedGo_bounds {l : List Char} {k : Nat} {val v : BString} {m : Nat}
    (h : scanQuotedGo l k val = some (v, m)) : k < m ∧ m ≤ k + l.length := by
  suffices H : ∀ (n : Nat) (l : List Char), l.length ≤ n → ∀ (k : Nat) (val v : BString)
      (m : Nat), scanQuotedGo l k val = some (v, m) → k < m ∧ m ≤ k + l.length by
    exact H l.length l le_rfl k val v m h
  intro n
  induction n with
  | zero =>
    intro l hl k val v m h
    have hnil : l = [] := List.eq_nil_of_length_eq_zero (Nat.le_antisymm hl (Nat.zero_le _))
    subst hnil
    simp [scanQuotedGo] at h
  | succ n ih =>
    intro l hl k val v m h
    cases l with
    | nil => simp [scanQuotedGo] at h
    | cons c rest =>
      cases rest with
      | nil =>
        simp only [scanQuotedGo] at h
        by_cases hbs : (c == '\\') = true
        · rw [if_pos hbs] at h
          exact Option.noConfusion h
        · rw [if_neg hbs] at h
          by_cases hq : (c == '\"') = true
          · rw [if_pos hq] at h
            cases h
            simp only [List.length_cons]
            omega
          · rw [if_neg hq] at h
            simp [scanQuotedGo] at h
      | cons e rest2 =>
        simp only [scanQuotedGo] at h
        by_cases hbs : (c == '\\') = true
        · rw [if_pos hbs] at h
          have := ih rest2 (by simp only [List.length_cons] at hl; omega) (k + 2) (val ++ [e]) v m h
          simp only [List.length_cons]
          omega
        · rw [if_neg hbs] at h
          by_cases hq : (c == '\"') = true
          · rw [if_pos hq] at h
            cases h
            simp only [List.length_cons]
            omega
          · rw [if_neg hq] at h
            have := ih (e :: rest2) (by simp only [List.length_cons] at hl ⊢; omega) (k + 1)
              (val ++ [c]) v m h
            simp only [List.length_cons] at this ⊢
            omega

/-- Position bounds of `scanQuoted`. -/
theorem scanQuoted_bounds {inp : BString} {v val : BString} {n m : Nat}
    (h : scanQuoted inp n v = some (val, m)) : n < m ∧ m ≤ inp.length := by
  have hb := scanQuotedGo_bounds h
  have hl : (inp.drop n).length = inp.length - n := List.length_drop n inp
  omega

/-- The fuel supplied to `parseParamsLoop` is irrelevant as long as it
covers the remaining bytes: the loop advances by at least one byte per
iteration.  In particular the fuel `inp.length` used by `parseParams` is
always sufficient, so the fuel is a termination artifact, not semantics. -/
theorem parseParamsLoop_fuel (inp : BString) :
    ∀ (fuel fuel' start : Nat) (out : Params),
      inp.length ≤ start + fuel → inp.length ≤ start + fuel' →
      parseParamsLoop inp fuel start out = parseParamsLoop inp fuel' start out := by
  intro fuel
  induction fuel with
  | zero =>
    intro fuel' start out h h'
    cases fuel' with
    | zero => rfl
    | succ f' =>
      have hge : ¬ start < inp.length := by omega
      simp [parseParamsLoop, hge]
  | succ fuel ih =>
    intro fuel' start out h h'
    cases fuel' with
    | zero =>
      have hge : ¬ start < inp.length := by omega
      simp [parseParamsLoop, hge]
    | succ f' =>
      by_cases hin : start < inp.length
      · simp only [parseParamsLoop, hin, if_true]
        cases hfn : findNextFrom inp ['=', ';'] start with
        | none => rfl
        | some a0 =>
          have hb := findNextFrom_bounds hfn
          by_cases he : (inp[a0]? == some '=') = true
          · simp only [he, if_true]
            by_cases hge : a0 + 1 ≥ inp.length
            · simp only [hge, if_true]
            · simp only [hge, if_false]
              by_cases hq : (inp[a0 + 1]? == some '\"') = true
              · simp only [hq, if_true]
                cases hsq : scanQuoted inp (a0 + 1 + 1) [] with
                | none => rfl
                | some p =>
                  obtain ⟨val, a2⟩ := p
                  have hb2 := scanQuoted_bounds hsq
                  dsimp only
                  cases hsc : indexOfFrom inp ';' a2 with
                  | none => rfl
                  | some a3 =>
                    have hb3 := indexOfFrom_bounds hsc
                    exact ih f' (a3 + 1) _ (by omega) (by omega)
              · simp only [hq, Bool.false_eq_true, if_false]
                cases hsc : indexOfFrom inp ';' (a0 + 1) with
                | none => rfl
                | some a3 =>
                  have hb3 := indexOfFrom_bounds hsc
                  exact ih f' (a3 + 1) _ (by omega) (by omega)
          · simp only [he, Bool.false_eq_true, if_false]
            exact ih f' (a0 + 1) _ (by omega) (by omega)
      · simp [parseParamsLoop, hin]

/-- Full characterisation of one `tryReadOut` iteration: the new state is
the old one with the routing decision's effect applied and
`outReadInProgress` updated. -/
theorem processOutFrame_char (s : SessionState) (f : Frame) :
    processOutFrame s f =
      { s with
        outReadInProgress := oripAfter s f
        inWrittenLog := s.inWrittenLog ++
          (if routeOfFrame s f = .ToClient then [f] else [])
        inPending := s.inPending +
          (if routeOfFrame s f = .ToClient then 1 else 0)
        gripSentLog := s.gripSentLog ++
          (if routeOfFrame s f = .ToControl then [f.data.drop 2] else []) } := by
  obtain ⟨st, isk, osk, mgr, wc, ip, op, orp, cp, tg, mp, dt, sc, owl, iwl, gsl, cr, ca, fc, af⟩ := s
  obtain ⟨ft, dat, mr⟩ := f
  cases dt <;> cases ft <;> cases orp <;> cases wc <;> cases mr <;>
    cases hcp : cMarker.isPrefixOf dat <;>
    cases hmp : mp.isPrefixOf dat <;>
    simp [processOutFrame, oripAfter, routeOfFrame, writeInFrame, hcp, hmp]

/-- `processOutFrame` leaves every field other than `outReadInProgress`,
`inWrittenLog`, `inPending` and `gripSentLog` unchanged. -/
theorem processOutFrame_fields (s : SessionState) (f : Frame) :
    (processOutFrame s f).state = s.state ∧
    (processOutFrame s f).inSock = s.inSock ∧
    (processOutFrame s f).outSock = s.outSock ∧
    (processOutFrame s f).wsControlManager = s.wsControlManager ∧
    (processOutFrame s f).wsControl = s.wsControl ∧
    (processOutFrame s f).outPending = s.outPending ∧
    (processOutFrame s f).channelPrefix = s.channelPrefix ∧
    (processOutFrame s f).targets = s.targets ∧
    (processOutFrame s f).messagePrefix = s.messagePrefix ∧
    (processOutFrame s f).detached = s.detached ∧
    (processOutFrame s f).subChannel = s.subChannel ∧
    (processOutFrame s f).outWrittenLog = s.outWrittenLog ∧
    (processOutFrame s f).clientResponses = s.clientResponses ∧
    (processOutFrame s f).connectAttempts = s.connectAttempts ∧
    (processOutFrame s f).finishedCount = s.finishedCount ∧
    (processOutFrame s f).assertFailed = s.assertFailed := by
  rw [processOutFrame_char]
  simp

/-- The `tryReadOut` loop leaves the same fields unchanged. -/
theorem tryReadOutLoop_fields (q : List Frame) (s : SessionState) :
    (tryReadOutLoop s q).1.state = s.state ∧
    (tryReadOutLoop s q).1.inSock = s.inSock ∧
    (tryReadOutLoop s q).1.outSock = s.outSock ∧
    (tryReadOutLoop s q).1.wsControlManager = s.wsControlManager ∧
    (tryReadOutLoop s q).1.wsControl = s.wsControl ∧
    (tryReadOutLoop s q).1.outPending = s.outPending ∧
    (tryReadOutLoop s q).1.channelPrefix = s.channelPrefix ∧
    (tryReadOutLoop s q).1.targets = s.targets ∧
    (tryReadOutLoop s q).1.messagePrefix = s.messagePrefix ∧
    (tryReadOutLoop s q).1.detached = s.detached ∧
    (tryReadOutLoop s q).1.subChannel = s.subChannel ∧
    (tryReadOutLoop s q).1.outWrittenLog = s.outWrittenLog ∧
    (tryReadOutLoop s q).1.clientResponses = s.clientResponses ∧
    (tryReadOutLoop s q).1.connectAttempts = s.connectAttempts ∧
    (tryReadOutLoop s q).1.finishedCount = s.finishedCount ∧
    (tryReadOutLoop s q).1.assertFailed = s.assertFailed := by
  induction q generalizing s with
  | nil => simp [tryReadOutLoop]
  | cons f rest ih =>
    by_cases hp : s.inPending < PENDING_FRAMES_MAX
    · have h1 := ih (processOutFrame s f)
      have h2 := processOutFrame_fields s f
      simp only [tryReadOutLoop, hp, if_true]
      obtain ⟨a1, a2, a3, a4, a5, a6, a7, a8, a9, a10, a11, a12, a13, a14, a15, a16⟩ := h1
      obtain ⟨b1, b2, b3, b4, b5, b6, b7, b8, b9, b10, b11, b12, b13, b14, b15, b16⟩ := h2
      constructor
      · rw [a1, b1]
      constructor
      · rw [a2, b2]
      constructor
      · rw [a3, b3]
      constructor
      · rw [a4, b4]
      constructor
      · rw [a5, b5]
      constructor
      · rw [a6, b6]
      constructor
      · rw [a7, b7]
      constructor
      · rw [a8, b8]
      constructor
      · rw [a9, b9]
      constructor
      · rw [a10, b10]
      constructor
      · rw [a11, b11]
      constructor
      · rw [a12, b12]
      constructor
      · rw [a13, b13]
      constructor
      · rw [a14, b14]
      constructor
      · rw [a15, b15]
      · rw [a16, b16]
    · simp [tryReadOutLoop, hp]

/-- `processInFrame` leaves every field other than `outWrittenLog` and
`outPending` unchanged. -/
theorem processInFrame_fields (s : SessionState) (f : Frame) :
    (processInFrame s f).state = s.state ∧
    (processInFrame s f).inSock = s.inSock ∧
    (processInFrame s f).outSock = s.outSock ∧
    (processInFrame s f).wsControlManager = s.wsControlManager ∧
    (processInFrame s f).wsControl = s.wsControl ∧
    (processInFrame s f).inPending = s.inPending ∧
    (processInFrame s f).outReadInProgress = s.outReadInProgress ∧
    (processInFrame s f).channelPrefix = s.channelPrefix ∧
    (processInFrame s f).targets = s.targets ∧
    (processInFrame s f).messagePrefix = s.messagePrefix ∧
    (processInFrame s f).detached = s.detached ∧
    (processInFrame s f).subChannel = s.subChannel ∧
    (processInFrame s f).inWrittenLog = s.inWrittenLog ∧
    (processInFrame s f).gripSentLog = s.gripSentLog ∧
    (processInFrame s f).clientResponses = s.clientResponses ∧
    (processInFrame s f).connectAttempts = s.connectAttempts ∧
    (processInFrame s f).finishedCount = s.finishedCount ∧
    (processInFrame s f).assertFailed = s.assertFailed := by
  unfold processInFrame writeOutFrame
  cases hd : s.detached <;> simp [hd]

/-- The `tryReadIn` loop leaves every field other than `outWrittenLog` and
`outPending` unchanged. -/
theorem tryReadInLoop_fields (q : List Frame) (s : SessionState) :
    (tryReadInLoop s q).1.state = s.state ∧
    (tryReadInLoop s q).1.inSock = s.inSock ∧
    (tryReadInLoop s q).1.outSock = s.outSock ∧
    (tryReadInLoop s q).1.wsControlManager = s.wsControlManager ∧
    (tryReadInLoop s q).1.wsControl = s.wsControl ∧
    (tryReadInLoop s q).1.inPending = s.inPending ∧
    (tryReadInLoop s q).1.outReadInProgress = s.outReadInProgress ∧
    (tryReadInLoop s q).1.channelPrefix = s.channelPrefix ∧
    (tryReadInLoop s q).1.targets = s.targets ∧
    (tryReadInLoop s q).1.messagePrefix = s.messagePrefix ∧
    (tryReadInLoop s q).1.detached = s.detached ∧
    (tryReadInLoop s q).1.subChannel = s.subChannel ∧
    (tryReadInLoop s q).1.inWrittenLog = s.inWrittenLog ∧
    (tryReadInLoop s q).1.gripSentLog = s.gripSentLog ∧
    (tryReadInLoop s q).1.clientResponses = s.clientResponses ∧
    (tryReadInLoop s q).1.connectAttempts = s.connectAttempts ∧
    (tryReadInLoop s q).1.finishedCount = s.finishedCount ∧
    (tryReadInLoop s q).1.assertFailed = s.assertFailed := by
  induction q generalizing s with
  | nil => simp [tryReadInLoop]
  | cons f rest ih =>
    by_cases hp : s.outPending < PENDING_FRAMES_MAX
    · have h1 := ih (processInFrame s f)
      have h2 := processInFrame_fields s f
      simp only [tryReadInLoop, hp, if_true]
      obtain ⟨a1, a2, a3, a4, a5, a6, a7, a8, a9, a10, a11, a12, a13, a14, a15, a16, a17, a18⟩ := h1
      obtain ⟨b1, b2, b3, b4, b5, b6, b7, b8, b9, b10, b11, b12, b13, b14, b15, b16, b17, b18⟩ := h2
      exact ⟨a1.trans b1, a2.trans b2, a3.trans b3, a4.trans b4, a5.trans b5, a6.trans b6,
        a7.trans b7, a8.trans b8, a9.trans b9, a10.trans b10, a11.trans b11, a12.trans b12,
        a13.trans b13, a14.trans b14, a15.trans b15, a16.trans b16, a17.trans b17, a18.trans b18⟩
    · simp [tryReadInLoop, hp]

/-- One `tryReadOut` iteration raises `inPending` by at most one and never
lowers it. -/
theorem processOutFrame_inPending (s : SessionState) (f : Frame) :
    s.inPending ≤ (processOutFrame s f).inPending ∧
    (processOutFrame s f).inPending ≤ s.inPending + 1 := by
  rw [processOutFrame_char]
  by_cases hr : routeOfFrame s f = Route.ToClient <;> simp [hr]

/-- Over a whole `tryReadOut` loop, `inPending` stays below any bound that
is at least `PENDING_FRAMES_MAX`, and never decreases. -/
theorem tryReadOutLoop_inPending (q : List Frame) (s : SessionState) (B : Int)
    (hB : PENDING_FRAMES_MAX ≤ B) (hs : s.inPending ≤ B) :
    s.inPending ≤ (tryReadOutLoop s q).1.inPending ∧
    (tryReadOutLoop s q).1.inPending ≤ B := by
  induction q generalizing s with
  | nil => simpa [tryReadOutLoop] using hs
  | cons f rest ih =>
    by_cases hp : s.inPending < PENDING_FRAMES_MAX
    · have h1 := processOutFrame_inPending s f
      have hP : PENDING_FRAMES_MAX = (100 : Int) := rfl
      have h2 := ih (processOutFrame s f) (by omega)
      simp only [tryReadOutLoop, hp, if_true]
      constructor
      · exact le_trans h1.1 h2.1
      · exact h2.2
    · simpa [tryReadOutLoop, hp] using hs

/-- One `tryReadIn` iteration raises `outPending` by at most one and never
lowers it. -/
theorem processInFrame_outPending (s : SessionState) (f : Frame) :
    s.outPending ≤ (processInFrame s f).outPending ∧
    (processInFrame s f).outPending ≤ s.outPending + 1 := by
  unfold processInFrame writeOutFrame
  cases hd : s.detached <;> simp

/-- Over a whole `tryReadIn` loop, `outPending` stays below any bound that
is at least `PENDING_FRAMES_MAX`, and never decreases. -/
theorem tryReadInLoop_outPending (q : List Frame) (s : SessionState) (B : Int)
    (hB : PENDING_FRAMES_MAX ≤ B) (hs : s.outPending ≤ B) :
    s.outPending ≤ (tryReadInLoop s q).1.outPending ∧
    (tryReadInLoop s q).1.outPending ≤ B := by
  induction q generalizing s with
  | nil => simpa [tryReadInLoop] using hs
  | cons f rest ih =>
    by_cases hp : s.outPending < PENDING_FRAMES_MAX
    · have h1 := processInFrame_outPending s f
      have hP : PENDING_FRAMES_MAX = (100 : Int) := rfl
      have h2 := ih (processInFrame s f) (by omega)
      simp only [tryReadInLoop, hp, if_true]
      constructor
      · exact le_trans h1.1 h2.1
      · exact h2.2
    · simpa [tryReadInLoop, hp] using hs

/-- Field preservation of `tryReadOut`: everything except `inPending`,
`inWrittenLog`, `gripSentLog`, `outReadInProgress` and the `outSock` read
queue is unchanged; the origin socket's presence and phase persist. -/
theorem tryReadOut_fields (s : SessionState) :
    (tryReadOut s).state = s.state ∧
    (tryReadOut s).inSock = s.inSock ∧
    (tryReadOut s).wsControlManager = s.wsControlManager ∧
    (tryReadOut s).wsControl = s.wsControl ∧
    (tryReadOut s).outPending = s.outPending ∧
    (tryReadOut s).channelPrefix = s.channelPrefix ∧
    (tryReadOut s).targets = s.targets ∧
    (tryReadOut s).messagePrefix = s.messagePrefix ∧
    (tryReadOut s).detached = s.detached ∧
    (tryReadOut s).subChannel = s.subChannel ∧
    (tryReadOut s).outWrittenLog = s.outWrittenLog ∧
    (tryReadOut s).clientResponses = s.clientResponses ∧
    (tryReadOut s).connectAttempts = s.connectAttempts ∧
    (tryReadOut s).finishedCount = s.finishedCount ∧
    (tryReadOut s).assertFailed = s.assertFailed ∧
    (tryReadOut s).outSock.isSome = s.outSock.isSome ∧
    (tryReadOut s).outSock.map Sock.sstate = s.outSock.map Sock.sstate := by
  cases hos : s.outSock with
  | none => simp [tryReadOut, hos]
  | some o =>
    obtain ⟨a1, a2, a3, a4, a5, a6, a7, a8, a9, a10, a11, a12, a13, a14, a15, a16⟩ :=
      tryReadOutLoop_fields o.readQueue s
    simp [tryReadOut, hos, a1, a2, a3, a4, a5, a6, a7, a8, a9, a10, a11, a12, a13, a14, a15, a16]

/-- Field preservation of `tryReadIn`: everything except `outPending`,
`outWrittenLog` and the `inSock` read queue is unchanged; the client
socket's presence and phase persist. -/
theorem tryReadIn_fields (s : SessionState) :
    (tryReadIn s).state = s.state ∧
    (tryReadIn s).outSock = s.outSock ∧
    (tryReadIn s).wsControlManager = s.wsControlManager ∧
    (tryReadIn s).wsControl = s.wsControl ∧
    (tryReadIn s).inPending = s.inPending ∧
    (tryReadIn s).outReadInProgress = s.outReadInProgress ∧
    (tryReadIn s).channelPrefix = s.channelPrefix ∧
    (tryReadIn s).targets = s.targets ∧
    (tryReadIn s).messagePrefix = s.messagePrefix ∧
    (tryReadIn s).detached = s.detached ∧
    (tryReadIn s).subChannel = s.subChannel ∧
    (tryReadIn s).inWrittenLog = s.inWrittenLog ∧
    (tryReadIn s).gripSentLog = s.gripSentLog ∧
    (tryReadIn s).clientResponses = s.clientResponses ∧
    (tryReadIn s).connectAttempts = s.connectAttempts ∧
    (tryReadIn s).finishedCount = s.finishedCount ∧
    (tryReadIn s).assertFailed = s.assertFailed ∧
    (tryReadIn s).inSock.isSome = s.inSock.isSome ∧
    (tryReadIn s).inSock.map Sock.sstate = s.inSock.map Sock.sstate := by
  cases his : s.inSock with
  | none => simp [tryReadIn, his]
  | some i =>
    obtain ⟨a1, a2, a3, a4, a5, a6, a7, a8, a9, a10, a11, a12, a13, a14, a15, a16, a17, a18⟩ :=
      tryReadInLoop_fields i.readQueue s
    simp [tryReadIn, his, a1, a2, a3, a4, a5, a6, a7, a8, a9, a10, a11, a12, a13, a14, a15,
      a16, a17, a18]

/-- `tryReadOut` under the bound hypotheses. -/
theorem tryReadOut_inPending (s : SessionState) (B : Int)
    (hB : PENDING_FRAMES_MAX ≤ B) (hs : s.inPending ≤ B) :
    s.inPending ≤ (tryReadOut s).inPending ∧ (tryReadOut s).inPending ≤ B := by
  cases hos : s.outSock with
  | none => simpa [tryReadOut, hos] using hs
  | some o =>
    have h := tryReadOutLoop_inPending o.readQueue s B hB hs
    simpa [tryReadOut, hos] using h

/-- `tryReadIn` under the bound hypotheses. -/
theorem tryReadIn_outPending (s : SessionState) (B : Int)
    (hB : PENDING_FRAMES_MAX ≤ B) (hs : s.outPending ≤ B) :
    s.outPending ≤ (tryReadIn s).outPending ∧ (tryReadIn s).outPending ≤ B := by
  cases his : s.inSock with
  | none => simpa [tryReadIn, his] using hs
  | some i =>
    have h := tryReadInLoop_outPending i.readQueue s B hB hs
    simpa [tryReadIn, his] using h

/-- With `detached` set, `processOutFrame` is the identity (line 413). -/
theorem processOutFrame_detached (s : SessionState) (f : Frame)
    (hd : s.detached = true) : processOutFrame s f = s := by
  simp [processOutFrame, hd]

/-- With `detached` set, `processInFrame` is the identity (line 399). -/
theorem processInFrame_detached (s : SessionState) (f : Frame)
    (hd : s.detached = true) : processInFrame s f = s := by
  simp [processInFrame, hd]

/-- With `detached` set, the `tryReadOut` loop leaves the session state
untouched: every pulled frame is discarded. -/
theorem tryReadOutLoop_detached (q : List Frame) (s : SessionState)
    (hd : s.detached = true) : (tryReadOutLoop s q).1 = s := by
  induction q with
  | nil => simp [tryReadOutLoop]
  | cons f rest ih =>
    by_cases hp : s.inPending < PENDING_FRAMES_MAX
    · simpa [tryReadOutLoop, hp, processOutFrame_detached s f hd] using ih
    · simp [tryReadOutLoop, hp]

/-- With `detached` set, the `tryReadIn` loop leaves the session state
untouched. -/
theorem tryReadInLoop_detached (q : List Frame) (s : SessionState)
    (hd : s.detached = true) : (tryReadInLoop s q).1 = s := by
  induction q with
  | nil => simp [tryReadInLoop]
  | cons f rest ih =>
    by_cases hp : s.outPending < PENDING_FRAMES_MAX
    · simpa [tryReadInLoop, hp, processInFrame_detached s f hd] using ih
    · simp [tryReadInLoop, hp]

/-- With `detached` set, `tryReadOut` changes nothing but the origin read
queue. -/
theorem tryReadOut_detached (s : SessionState) (hd : s.detached = true) :
    (tryReadOut s).inWrittenLog = s.inWrittenLog ∧
    (tryReadOut s).gripSentLog = s.gripSentLog ∧
    (tryReadOut s).inPending = s.inPending ∧
    (tryReadOut s).outReadInProgress = s.outReadInProgress := by
  cases hos : s.outSock with
  | none => simp [tryReadOut, hos]
  | some o => simp [tryReadOut, hos, tryReadOutLoop_detached o.readQueue s hd]

/-- With `detached` set, `tryReadIn` changes nothing but the client read
queue. -/
theorem tryReadIn_detached (s : SessionState) (hd : s.detached = true) :
    (tryReadIn s).outWrittenLog = s.outWrittenLog ∧
    (tryReadIn s).outPending = s.outPending := by
  cases his : s.inSock with
  | none => simp [tryReadIn, his]
  | some i => simp [tryReadIn, his, tryReadInLoop_detached i.readQueue s hd]

/-- Continuation fragments of a message in progress are always written to
the client, with or without a control session (lines 440-445 and 448-452). -/
theorem msgRoutes_conts_toClient (rest : List Frame) :
    ∀ (g : Frame) (s : SessionState) (ft : FrameType),
    s.detached = false → s.outReadInProgress = some ft →
    ((g :: rest).all (fun f => f.ftype == FrameType.Continuation)) = true →
    chainOK g rest = true →
    msgRoutes s (g :: rest) = List.replicate (rest.length + 1) Route.ToClient := by
  induction rest with
  | nil =>
    intro g s ft hd ho hall hch
    simp only [List.all_cons, List.all_nil, Bool.and_true, beq_iff_eq] at hall
    simp only [chainOK, Bool.not_eq_true'] at hch
    cases hw : s.wsControl <;>
      simp [msgRoutes, routeOfFrame, hd, ho, hall, hch, hw]
  | cons g2 rest2 ih =>
    intro g s ft hd ho hall hch
    simp only [List.all_cons, Bool.and_eq_true, beq_iff_eq] at hall
    obtain ⟨hg, hg2, hall2⟩ := hall
    simp only [chainOK, Bool.and_eq_true] at hch
    obtain ⟨hgm, hch2⟩ := hch
    have hroute : routeOfFrame s g = Route.ToClient := by
      cases hw : s.wsControl <;> simp [routeOfFrame, hd, ho, hg, hw]
    have horip : oripAfter s g = some ft := by
      cases hw : s.wsControl <;> simp [oripAfter, hd, ho, hg, hgm, hw]
    have hrec := ih g2 (processOutFrame s g) ft
      (by rw [processOutFrame_char]; simpa using hd)
      (by rw [processOutFrame_char]; simpa using horip)
      (by simp only [List.all_cons, Bool.and_eq_true, beq_iff_eq]; exact ⟨hg2, hall2⟩)
      hch2
    show routeOfFrame s g :: msgRoutes (processOutFrame s g) (g2 :: rest2) =
      List.replicate (rest2.length + 1 + 1) Route.ToClient
    rw [hroute, hrec]
    simp [List.replicate_succ]

/-- With no message in progress, Continuation fragments are dropped
(lines 419-420), and the state is untouched. -/
theorem msgRoutes_conts_dropped (t : List Frame) :
    ∀ (s : SessionState),
    s.detached = false → s.outReadInProgress = none →
    (t.all (fun f => f.ftype == FrameType.Continuation)) = true →
    msgRoutes s t = List.replicate t.length Route.Dropped := by
  induction t with
  | nil => intro s _ _ _; simp [msgRoutes]
  | cons g rest ih =>
    intro s hd ho hall
    simp only [List.all_cons, Bool.and_eq_true, beq_iff_eq] at hall
    obtain ⟨hg, hall2⟩ := hall
    have hroute : routeOfFrame s g = Route.Dropped := by
      simp [routeOfFrame, hd, ho, hg]
    have hskip : processOutFrame s g = s := by
      simp [processOutFrame, hd, ho, hg]
    have hrec := ih s hd ho hall2
    show routeOfFrame s g :: msgRoutes (processOutFrame s g) rest =
      List.replicate (rest.length + 1) Route.Dropped
    rw [hroute, hskip, hrec, List.replicate_succ]

/-- With no message in progress, the `tryReadOut` loop drops a run of
Continuation frames without changing the session state. -/
theorem tryReadOutLoop_conts_dropped (t : List Frame) (s : SessionState)
    (hd : s.detached = false) (ho : s.outReadInProgress = none)
    (hall : (t.all (fun f => f.ftype == FrameType.Continuation)) = true) :
    (tryReadOutLoop s t).1 = s := by
  induction t with
  | nil => simp [tryReadOutLoop]
  | cons g rest ih =>
    simp only [List.all_cons, Bool.and_eq_true, beq_iff_eq] at hall
    obtain ⟨hg, hall2⟩ := hall
    have hskip : processOutFrame s g = s := by
      simp [processOutFrame, hd, ho, hg]
    by_cases hp : s.inPending < PENDING_FRAMES_MAX
    · simpa [tryReadOutLoop, hp, hskip] using ih hall2
    · simp [tryReadOutLoop, hp]

/-- Without a control session, every frame of a well-formed message is
routed to the client (lines 448-452). -/
theorem msgRoutes_noControl (s : SessionState) (m : List Frame)
    (hwf : wfMsg m = true) (hwc : s.wsControl = false)
    (hd : s.detached = false) (ho : s.outReadInProgress = none) :
    msgRoutes s m = List.replicate m.length Route.ToClient := by
  cases m with
  | nil => simp [wfMsg] at hwf
  | cons h t =>
    simp only [wfMsg, Bool.and_eq_true, Bool.or_eq_true, beq_iff_eq] at hwf
    obtain ⟨⟨hh, hall⟩, hch⟩ := hwf
    have hhnc : ¬h.ftype = FrameType.Continuation := by
      rcases hh with hh | hh <;> simp [hh]
    have hroute : routeOfFrame s h = Route.ToClient := by
      rcases hh with hh | hh <;> simp [routeOfFrame, hd, ho, hh, hwc]
    cases t with
    | nil => simp [msgRoutes, hroute]
    | cons g rest =>
      simp only [chainOK, Bool.and_eq_true] at hch
      obtain ⟨hm, hch2⟩ := hch
      have horip : oripAfter s h = some h.ftype := by
        rcases hh with hh | hh <;> simp [oripAfter, hd, ho, hh, hm, hwc]
      have hrec := msgRoutes_conts_toClient rest g (processOutFrame s h) h.ftype
        (by rw [processOutFrame_char]; simpa using hd)
        (by rw [processOutFrame_char]; simpa using horip)
        hall hch2
      show routeOfFrame s h :: msgRoutes (processOutFrame s h) (g :: rest) =
        List.replicate ((g :: rest).length + 1) Route.ToClient
      rw [hroute, hrec]
      simp [List.replicate_succ]

/-! ## Claim C1 -/

/-- Claim C1 as stated is false: with a control session attached, a
well-formed two-fragment message whose Text head starts with neither `"c:"`
nor `messagePrefix` has its head dropped while its continuation is written
to the client — the fragments do not share one routing decision.
`tryReadOut` on the same queue confirms the observable effect. -/
theorem c1_counterexample :
    wfMsg msgNoMarker = true ∧ sMid.wsControl = true ∧
    sMid.detached = false ∧ sMid.outReadInProgress = none ∧
    msgRoutes sMid msgNoMarker = [Route.Dropped, Route.ToClient] ∧
    Route.Dropped ≠ Route.ToClient ∧
    (tryReadOut (putOut sMid msgNoMarker)).inWrittenLog =
      [Frame.mk FrameType.Continuation ['y'] false] ∧
    (tryReadOut (putOut sMid msgNoMarker)).gripSentLog = [] := by decide

/-- Claim C1, amended.  For every well-formed upstream message the routing
decisions in `tryReadOut` are: all fragments to the client (no control
session, or head matching `messagePrefix`), all dropped (multi-fragment
control message), the single fragment to the control channel (one-fragment
control message), or — the exception the code forces — when a control
session is attached and the head matches neither `"c:"` (as Text) nor
`messagePrefix`, the head alone is dropped and the remaining fragments are
written to the client. -/
theorem c1_routing_shapes (s : SessionState) (h : Frame) (t : List Frame)
    (hwf : wfMsg (h :: t) = true) (hd : s.detached = false)
    (ho : s.outReadInProgress = none) :
    msgRoutes s (h :: t) =
      (if s.wsControl = false then List.replicate (t.length + 1) Route.ToClient
       else if h.ftype = FrameType.Text ∧ cMarker.isPrefixOf h.data = true then
         if h.more = true then List.replicate (t.length + 1) Route.Dropped
         else [Route.ToControl]
       else if s.messagePrefix.isPrefixOf h.data = true then
         List.replicate (t.length + 1) Route.ToClient
       else Route.Dropped :: List.replicate t.length Route.ToClient) := by
  by_cases hw : s.wsControl = false
  · rw [if_pos hw]
    have hcl := msgRoutes_noControl s (h :: t) hwf hw hd ho
    simpa using hcl
  · rw [if_neg hw]
    have hwct : s.wsControl = true := by
      cases hv : s.wsControl
      · exact absurd hv hw
      · rfl
    simp only [wfMsg, Bool.and_eq_true, Bool.or_eq_true, beq_iff_eq] at hwf
    obtain ⟨⟨hh, hall⟩, hch⟩ := hwf
    by_cases htc : h.ftype = FrameType.Text ∧ cMarker.isPrefixOf h.data = true
    · rw [if_pos htc]
      obtain ⟨hht, hcp⟩ := htc
      by_cases hm : h.more = true
      · rw [if_pos hm]
        have hroute : routeOfFrame s h = Route.Dropped := by
          simp [routeOfFrame, hd, ho, hht, hcp, hwct, hm]
        have horip : oripAfter s h = none := by
          simp [oripAfter, hd, ho, hht, hcp, hwct, hm]
        have hrec := msgRoutes_conts_dropped t (processOutFrame s h)
          (by rw [processOutFrame_char]; simpa using hd)
          (by rw [processOutFrame_char]; simpa using horip)
          hall
        show routeOfFrame s h :: msgRoutes (processOutFrame s h) t =
          List.replicate (t.length + 1) Route.Dropped
        rw [hroute, hrec]
        simp [List.replicate_succ]
      · rw [if_neg hm]
        have hmf : h.more = false := by
          cases hv : h.more
          · rfl
          · exact absurd hv hm
        cases t with
        | nil =>
          have hroute : routeOfFrame s h = Route.ToControl := by
            simp [routeOfFrame, hd, ho, hht, hcp, hwct, hmf]
          simp [msgRoutes, hroute]
        | cons g rest => simp [chainOK, hmf] at hch
    · rw [if_neg htc]
      have hcp : h.ftype = FrameType.Text → cMarker.isPrefixOf h.data = false := by
        intro hht
        cases hv : cMarker.isPrefixOf h.data
        · rfl
        · exact absurd ⟨hht, hv⟩ htc
      have hroute1 : s.messagePrefix.isPrefixOf h.data = true →
          routeOfFrame s h = Route.ToClient := by
        intro hmp
        rcases hh with hht | hhb
        · simp [routeOfFrame, hd, ho, hht, hwct, hcp hht, hmp]
        · simp [routeOfFrame, hd, ho, hhb, hwct, hmp]
      have hroute2 : s.messagePrefix.isPrefixOf h.data = false →
          routeOfFrame s h = Route.Dropped := by
        intro hmp
        rcases hh with hht | hhb
        · simp [routeOfFrame, hd, ho, hht, hwct, hcp hht, hmp]
        · simp [routeOfFrame, hd, ho, hhb, hwct, hmp]
      have horip : h.more = true → oripAfter s h = some h.ftype := by
        intro hm
        rcases hh with hht | hhb
        · simp [oripAfter, hd, ho, hht, hm, hwct, hcp hht]
        · simp [oripAfter, hd, ho, hhb, hm, hwct]
      by_cases hmp : s.messagePrefix.isPrefixOf h.data = true
      · rw [if_pos hmp]
        cases t with
        | nil => simp [msgRoutes, hroute1 hmp]
        | cons g rest =>
          simp only [chainOK, Bool.and_eq_true] at hch
          obtain ⟨hm, hch2⟩ := hch
          have hrec := msgRoutes_conts_toClient rest g (processOutFrame s h) h.ftype
            (by rw [processOutFrame_char]; simpa using hd)
            (by rw [processOutFrame_char]; simpa using horip hm)
            hall hch2
          show routeOfFrame s h :: msgRoutes (processOutFrame s h) (g :: rest) =
            List.replicate ((g :: rest).length + 1) Route.ToClient
          rw [hroute1 hmp, hrec]
          simp [List.replicate_succ]
      · rw [if_neg hmp]
        have hmpf : s.messagePrefix.isPrefixOf h.data = false := by
          cases hv : s.messagePrefix.isPrefixOf h.data
          · rfl
          · exact absurd hv hmp
        cases t with
        | nil => simp [msgRoutes, hroute2 hmpf]
        | cons g rest =>
          simp only [chainOK, Bool.and_eq_true] at hch
          obtain ⟨hm, hch2⟩ := hch
          have hrec := msgRoutes_conts_toClient rest g (processOutFrame s h) h.ftype
            (by rw [processOutFrame_char]; simpa using hd)
            (by rw [processOutFrame_char]; simpa using horip hm)
            hall hch2
          show routeOfFrame s h :: msgRoutes (processOutFrame s h) (g :: rest) =
            Route.Dropped :: List.replicate (g :: rest).length Route.ToClient
          rw [hroute2 hmpf, hrec]
          simp [List.replicate_succ]

/-- Witness for `c1_routing_shapes` at a concrete message carrying the
`"m:"` marker: both fragments go to the client. -/
theorem c1_routing_shapes_witness :
    wfMsg [Frame.mk FrameType.Text ['m', ':', 'a'] true,
      Frame.mk FrameType.Continuation ['b'] false] = true ∧
    msgRoutes sMid [Frame.mk FrameType.Text ['m', ':', 'a'] true,
      Frame.mk FrameType.Continuation ['b'] false] =
        [Route.ToClient, Route.ToClient] :=
  ⟨by decide,
    by
      have hth := c1_routing_shapes sMid (Frame.mk FrameType.Text ['m', ':', 'a'] true)
        [Frame.mk FrameType.Continuation ['b'] false] (by decide) (by decide) (by decide)
      simpa using hth⟩

/-- `tryReadOut` on a session whose origin socket holds queue `q` runs the
loop and stores the unread remainder back. -/
theorem tryReadOut_unfold (s : SessionState) (o : Sock) (q : List Frame) :
    tryReadOut (withOutQueue s o q) =
      { (tryReadOutLoop (withOutQueue s o q) q).1 with
        outSock := some { o with readQueue := (tryReadOutLoop (withOutQueue s o q) q).2 } } :=
  rfl

/-- A single-fragment control message (`"c:"`-marked Text, `more = false`)
is handed to the control session with the marker stripped; nothing else
changes but `outReadInProgress`. -/
theorem tryReadOutLoop_gripSingle (s : SessionState) (d : BString)
    (hw : s.wsControl = true) (hd : s.detached = false)
    (hc : cMarker.isPrefixOf d = true) (hp : s.inPending < PENDING_FRAMES_MAX) :
    (tryReadOutLoop s [Frame.mk FrameType.Text d false]).1 =
      { s with gripSentLog := s.gripSentLog ++ [d.drop 2], outReadInProgress := none } := by
  have hr : routeOfFrame s (Frame.mk FrameType.Text d false) = Route.ToControl := by
    simp [routeOfFrame, hd, hw, hc]
  have hoa : oripAfter s (Frame.mk FrameType.Text d false) = none := by
    simp [oripAfter, hd]
  have hchar := processOutFrame_char s (Frame.mk FrameType.Text d false)
  rw [hr, hoa] at hchar
  simp only [reduceCtorEq, reduceIte, List.append_nil, Int.add_zero] at hchar
  simp [tryReadOutLoop, hp, hchar]

/-- A multi-fragment control message (`"c:"`-marked Text head with
`more = true`) is dropped whole: the head clears `outReadInProgress` and its
continuations are discarded; no log changes. -/
theorem tryReadOutLoop_gripMulti (s : SessionState) (d : BString) (t : List Frame)
    (hw : s.wsControl = true) (hd : s.detached = false)
    (hc : cMarker.isPrefixOf d = true) (hp : s.inPending < PENDING_FRAMES_MAX)
    (hall : (t.all (fun f => f.ftype == FrameType.Continuation)) = true) :
    (tryReadOutLoop s (Frame.mk FrameType.Text d true :: t)).1 =
      { s with outReadInProgress := none } := by
  have hr : routeOfFrame s (Frame.mk FrameType.Text d true) = Route.Dropped := by
    simp [routeOfFrame, hd, hw, hc]
  have hoa : oripAfter s (Frame.mk FrameType.Text d true) = none := by
    simp [oripAfter, hd, hw, hc]
  have hchar := processOutFrame_char s (Frame.mk FrameType.Text d true)
  rw [hr, hoa] at hchar
  simp only [reduceCtorEq, reduceIte, List.append_nil, Int.add_zero] at hchar
  have hdrop := tryReadOutLoop_conts_dropped t { s with outReadInProgress := none }
    (by simpa using hd) (by simp) hall
  simp [tryReadOutLoop, hp, hchar, hdrop]

/-! ## Claim C6 -/

/-- Claim C6: with a control session attached, a Text head frame whose
payload begins with `"c:"` and has `more = false` is handed to the control
session with the two-byte marker removed and is not written to the client;
with `more = true`, the head and all following Continuation frames are
dropped, and nothing is written to either peer. -/
theorem c6_control_message (s : SessionState) (d : BString) (t : List Frame) (o : Sock)
    (hw : s.wsControl = true) (hd : s.detached = false)
    (ho : s.outReadInProgress = none) (hc : cMarker.isPrefixOf d = true)
    (hp : s.inPending < PENDING_FRAMES_MAX)
    (hall : (t.all (fun f => f.ftype == FrameType.Continuation)) = true) :
    ((tryReadOut (withOutQueue s o [Frame.mk FrameType.Text d false])).gripSentLog
          = s.gripSentLog ++ [d.drop 2] ∧
      (tryReadOut (withOutQueue s o [Frame.mk FrameType.Text d false])).inWrittenLog
          = s.inWrittenLog ∧
      (tryReadOut (withOutQueue s o [Frame.mk FrameType.Text d false])).outWrittenLog
          = s.outWrittenLog) ∧
    ((tryReadOut (withOutQueue s o (Frame.mk FrameType.Text d true :: t))).gripSentLog
          = s.gripSentLog ∧
      (tryReadOut (withOutQueue s o (Frame.mk FrameType.Text d true :: t))).inWrittenLog
          = s.inWrittenLog ∧
      (tryReadOut (withOutQueue s o (Frame.mk FrameType.Text d true :: t))).outWrittenLog
          = s.outWrittenLog) := by
  constructor
  · have hl := tryReadOutLoop_gripSingle (withOutQueue s o [Frame.mk FrameType.Text d false]) d
      (by simpa [withOutQueue] using hw) (by simpa [withOutQueue] using hd) hc
      (by simpa [withOutQueue] using hp)
    rw [tryReadOut_unfold, hl]
    simp [withOutQueue]
  · have hl := tryReadOutLoop_gripMulti (withOutQueue s o (Frame.mk FrameType.Text d true :: t))
      d t (by simpa [withOutQueue] using hw) (by simpa [withOutQueue] using hd) hc
      (by simpa [withOutQueue] using hp) hall
    rw [tryReadOut_unfold, hl]
    simp [withOutQueue]

/-- Witness for `c6_control_message`: `c:hi` reaches the control session as
`hi`; a fragmented `c:`-message vanishes. -/
theorem c6_control_message_witness :
    (tryReadOut (withOutQueue sMid (Sock.mk [] SockPhase.SConnected)
        [Frame.mk FrameType.Text ['c', ':', 'h', 'i'] false])).gripSentLog = [['h', 'i']] ∧
    (tryReadOut (withOutQueue sMid (Sock.mk [] SockPhase.SConnected)
        [Frame.mk FrameType.Text ['c', ':', 'h', 'i'] false])).inWrittenLog = [] ∧
    (tryReadOut (withOutQueue sMid (Sock.mk [] SockPhase.SConnected)
        (Frame.mk FrameType.Text ['c', ':', 'h', 'i'] true ::
          [Frame.mk FrameType.Continuation ['z'] false]))).gripSentLog = [] ∧
    (tryReadOut (withOutQueue sMid (Sock.mk [] SockPhase.SConnected)
        (Frame.mk FrameType.Text ['c', ':', 'h', 'i'] true ::
          [Frame.mk FrameType.Continuation ['z'] false]))).inWrittenLog = [] := by
  have hth := c6_control_message sMid ['c', ':', 'h', 'i']
    [Frame.mk FrameType.Continuation ['z'] false] (Sock.mk [] SockPhase.SConnected)
    (by decide) (by decide) (by decide) (by decide) (by decide) (by decide)
  refine ⟨?_, ?_, ?_, ?_⟩
  · rw [hth.1.1]
    decide
  · rw [hth.1.2.1]
    decide
  · rw [hth.2.1]
    decide
  · rw [hth.2.2.1]
    decide

/-! ## Claims C3 and C10 -/

/-- Field behaviour of `out_connected_core` when the control manager is
null: no control session, no subscribe message, handshake completed. -/
theorem out_connected_core_noMgr (s : SessionState) (reason : BString)
    (hdrs : List (BString × BString)) (hmgr : s.wsControlManager = false) :
    (out_connected_core s reason hdrs).wsControl = s.wsControl ∧
    (out_connected_core s reason hdrs).gripSentLog = s.gripSentLog ∧
    (out_connected_core s reason hdrs).clientResponses =
      s.clientResponses ++ [ClientResponse.success reason (stripWsExt hdrs)] ∧
    (out_connected_core s reason hdrs).detached = s.detached ∧
    (out_connected_core s reason hdrs).outReadInProgress = s.outReadInProgress := by
  simp only [out_connected_core]
  by_cases hg : (getExtension (wsExtValues hdrs) gripName).isNull = true <;>
    by_cases hsub : (s.subChannel == ([] : BString)) = true <;>
      simp [hg, hsub, hmgr]

/-- `messagePrefix` behaviour of `out_connected_core`: set from the grip
extension when present (defaulting to `"m:"`), untouched otherwise. -/
theorem out_connected_core_marker (s : SessionState) (reason : BString)
    (hdrs : List (BString × BString)) :
    ((getExtension (wsExtValues hdrs) gripName).isNull = false →
      (out_connected_core s reason hdrs).messagePrefix =
        (match (getExtension (wsExtValues hdrs) gripName).params.lookup mpKey with
         | some v => v
         | none => mMarker)) ∧
    ((getExtension (wsExtValues hdrs) gripName).isNull = true →
      (out_connected_core s reason hdrs).messagePrefix = s.messagePrefix) := by
  constructor
  · intro hg
    simp only [out_connected_core]
    by_cases hsub : (s.subChannel == ([] : BString)) = true <;>
      by_cases hmgr : s.wsControlManager = true <;>
        simp [hg, hsub, hmgr]
  · intro hg
    simp only [out_connected_core]
    by_cases hsub : (s.subChannel == ([] : BString)) = true <;>
      by_cases hmgr : s.wsControlManager = true <;>
        simp [hg, hsub, hmgr]

/-- Claim C3 fails: when GRIP is activated solely by a non-empty
`subChannel` (origin offered no `grip` extension), a control session is
created, yet `messagePrefix` keeps its initial empty value instead of the
claimed `"m:"` default (the assignment at lines 535-541 only runs when the
extension is present). -/
theorem c3_counterexample :
    (getExtension (wsExtValues []) gripName).isNull = true ∧
    sSub.subChannel ≠ [] ∧
    (out_connected sSub [] []).wsControl = true ∧
    (out_connected sSub [] []).messagePrefix = [] ∧
    (out_connected sSub [] []).messagePrefix ≠ mMarker := by decide

/-- Claim C3, amended: when the origin response advertises the `grip`
extension, `messagePrefix` is its `message-prefix` parameter if present and
`"m:"` otherwise; when GRIP is activated only via `subChannel`,
`messagePrefix` is left unchanged (empty, unless previously set). -/
theorem c3_message_marker (s : SessionState) (reason : BString)
    (hdrs : List (BString × BString)) :
    ((getExtension (wsExtValues hdrs) gripName).isNull = false →
      (out_connected s reason hdrs).messagePrefix =
        (match (getExtension (wsExtValues hdrs) gripName).params.lookup mpKey with
         | some v => v
         | none => mMarker)) ∧
    ((getExtension (wsExtValues hdrs) gripName).isNull = true →
      (out_connected s reason hdrs).messagePrefix = s.messagePrefix) := by
  have hfld := tryReadIn_fields (out_connected_core s reason hdrs)
  have hmk := out_connected_core_marker s reason hdrs
  constructor
  · intro hg
    show (tryReadIn (out_connected_core s reason hdrs)).messagePrefix = _
    rw [hfld.2.2.2.2.2.2.2.2.1, hmk.1 hg]
  · intro hg
    show (tryReadIn (out_connected_core s reason hdrs)).messagePrefix = _
    rw [hfld.2.2.2.2.2.2.2.2.1, hmk.2 hg]

/-- Witness for `c3_message_marker`: `grip; message-prefix=p:` sets the
marker to `"p:"`. -/
theorem c3_message_marker_witness :
    (getExtension (wsExtValues wGripHdr) gripName).isNull = false ∧
    (out_connected (initState true) [] wGripHdr).messagePrefix = ['p', ':'] := by
  refine ⟨by decide, ?_⟩
  have hth := (c3_message_marker (initState true) [] wGripHdr).1 (by decide)
  rw [hth]
  decide

/-- Claim C10: with a null control manager, even when GRIP would be
activated, no control session is created, no subscribe message is sent, the
client handshake still completes, and every content frame of each
well-formed upstream message is routed to the client with no prefix
filtering. -/
theorem c10_null_manager (s : SessionState) (reason : BString)
    (hdrs : List (BString × BString)) (hmgr : s.wsControlManager = false)
    (hwc : s.wsControl = false) (hd : s.detached = false)
    (ho : s.outReadInProgress = none) :
    (out_connected s reason hdrs).wsControl = false ∧
    (out_connected s reason hdrs).gripSentLog = s.gripSentLog ∧
    (out_connected s reason hdrs).clientResponses =
      s.clientResponses ++ [ClientResponse.success reason (stripWsExt hdrs)] ∧
    (∀ m, wfMsg m = true →
      msgRoutes (out_connected s reason hdrs) m =
        List.replicate m.length Route.ToClient) := by
  have hfld := tryReadIn_fields (out_connected_core s reason hdrs)
  have hcore := out_connected_core_noMgr s reason hdrs hmgr
  have hwc2 : (out_connected s reason hdrs).wsControl = false := by
    show (tryReadIn (out_connected_core s reason hdrs)).wsControl = false
    rw [hfld.2.2.2.1, hcore.1, hwc]
  refine ⟨hwc2, ?_, ?_, ?_⟩
  · show (tryReadIn (out_connected_core s reason hdrs)).gripSentLog = s.gripSentLog
    rw [hfld.2.2.2.2.2.2.2.2.2.2.2.2.1, hcore.2.1]
  · show (tryReadIn (out_connected_core s reason hdrs)).clientResponses = _
    rw [hfld.2.2.2.2.2.2.2.2.2.2.2.2.2.1, hcore.2.2.1]
  · intro m hwf
    refine msgRoutes_noControl _ m hwf hwc2 ?_ ?_
    · show (tryReadIn (out_connected_core s reason hdrs)).detached = false
      rw [hfld.2.2.2.2.2.2.2.2.2.1, hcore.2.2.2.1, hd]
    · show (tryReadIn (out_connected_core s reason hdrs)).outReadInProgress = none
      rw [hfld.2.2.2.2.2.1, hcore.2.2.2.2, ho]

/-- Witness for `c10_null_manager` on a session created with a null
manager: a grip offer activates nothing and a plain Text message reaches
the client. -/
theorem c10_null_manager_witness :
    (out_connected (initState false) [] wGripHdr).wsControl = false ∧
    (out_connected (initState false) [] wGripHdr).gripSentLog = [] ∧
    msgRoutes (out_connected (initState false) [] wGripHdr)
      [Frame.mk FrameType.Text ['z'] false] = [Route.ToClient] := by
  have hth := c10_null_manager (initState false) [] wGripHdr
    (by decide) (by decide) (by decide) (by decide)
  refine ⟨hth.1, ?_, ?_⟩
  · rw [hth.2.1]
    rfl
  · have := hth.2.2.2 [Frame.mk FrameType.Text ['z'] false] (by decide)
    simpa using this

/-! ## Claim C7 -/

/-- When neither the `grip` extension nor a `subChannel` activates GRIP,
`out_connected` only completes the handshake. -/
theorem out_connected_core_inactive (s : SessionState) (reason : BString)
    (hdrs : List (BString × BString))
    (hg : (getExtension (wsExtValues hdrs) gripName).isNull = true)
    (hsub : s.subChannel = []) :
    (out_connected_core s reason hdrs).wsControl = s.wsControl ∧
    (out_connected_core s reason hdrs).gripSentLog = s.gripSentLog ∧
    (out_connected_core s reason hdrs).messagePrefix = s.messagePrefix ∧
    (out_connected_core s reason hdrs).clientResponses =
      s.clientResponses ++ [ClientResponse.success reason (stripWsExt hdrs)] := by
  simp [out_connected_core, hg, hsub]

/-- Claim C7 fails as universally stated: the parameter list `\x20a="b"=`
ends with the byte `'='`, yet `parseParams` accepts it (the trailing `'='`
sits after a closed quoted value and is skipped by the `indexOf(';')`
search at line 124), so the `grip` offer is NOT treated as absent. -/
theorem c7_counterexample :
    (" a=\"b\"=".toList.getLast? = some '=') ∧
    parseParams " a=\"b\"=".toList = some [(['a'], ['b'])] ∧
    (getExtension ["grip; a=\"b\"=".toList] gripName).isNull = false := by decide

/-- Claim C7, amended: whenever `parseParams` reports the parameter list
malformed — which it does at an unterminated quoted value, a backslash as
the final byte inside a quoted value, or a key-value `'='` the scan reaches
as the final byte — the extension is null, the grip offer counts as absent
(no control session, `messagePrefix` untouched) and the client handshake
still succeeds.  The three concrete conjuncts at the end exhibit the three
malformed shapes in their parser-reachable form. -/
theorem c7_malformed_params (ps : BString) (s : SessionState) (reason : BString)
    (hbad : parseParams ps = none) (hsub : s.subChannel = []) :
    (getExtension [gripName ++ ';' :: ps] gripName).isNull = true ∧
    (out_connected s reason [(secWsExtName, gripName ++ ';' :: ps)]).wsControl
      = s.wsControl ∧
    (out_connected s reason [(secWsExtName, gripName ++ ';' :: ps)]).gripSentLog
      = s.gripSentLog ∧
    (out_connected s reason [(secWsExtName, gripName ++ ';' :: ps)]).messagePrefix
      = s.messagePrefix ∧
    (out_connected s reason [(secWsExtName, gripName ++ ';' :: ps)]).clientResponses
      = s.clientResponses ++ [ClientResponse.success reason []] ∧
    parseParams "a=\"b".toList = none ∧
    parseParams "a=\"b\\".toList = none ∧
    parseParams "a=".toList = none := by
  have hred : getExtension [gripName ++ ';' :: ps] gripName =
      (match parseParams ps with
       | some prms => { name := gripName, params := prms }
       | none => {}) := rfl
  have hnull : (getExtension [gripName ++ ';' :: ps] gripName).isNull = true := by
    rw [hred, hbad]
    rfl
  have hv : wsExtValues [(secWsExtName, gripName ++ ';' :: ps)] =
      [gripName ++ ';' :: ps] := rfl
  have hstrip : stripWsExt [(secWsExtName, gripName ++ ';' :: ps)] = [] := rfl
  have hg : (getExtension
      (wsExtValues [(secWsExtName, gripName ++ ';' :: ps)]) gripName).isNull = true := by
    rw [hv]
    exact hnull
  have hcore := out_connected_core_inactive s reason
    [(secWsExtName, gripName ++ ';' :: ps)] hg hsub
  have hfld := tryReadIn_fields
    (out_connected_core s reason [(secWsExtName, gripName ++ ';' :: ps)])
  refine ⟨hnull, ?_, ?_, ?_, ?_, by decide, by decide, by decide⟩
  · show (tryReadIn _).wsControl = s.wsControl
    rw [hfld.2.2.2.1, hcore.1]
  · show (tryReadIn _).gripSentLog = s.gripSentLog
    rw [hfld.2.2.2.2.2.2.2.2.2.2.2.2.1, hcore.2.1]
  · show (tryReadIn _).messagePrefix = s.messagePrefix
    rw [hfld.2.2.2.2.2.2.2.2.1, hcore.2.2.1]
  · show (tryReadIn _).clientResponses = _
    rw [hfld.2.2.2.2.2.2.2.2.2.2.2.2.2.1, hcore.2.2.2, hstrip]

/-- Witness for `c7_malformed_params` at the parameter list `x=` (a
key-value `'='` as final byte). -/
theorem c7_malformed_params_witness :
    parseParams ['x', '='] = none ∧
    (getExtension [gripName ++ ';' :: ['x', '=']] gripName).isNull = true ∧
    (out_connected (initState true) [] [(secWsExtName, gripName ++ ';' :: ['x', '='])]).wsControl
      = false ∧
    (out_connected (initState true) [] [(secWsExtName, gripName ++ ';' :: ['x', '='])]).clientResponses
      = [ClientResponse.success [] []] := by
  have hth := c7_malformed_params ['x', '='] (initState true) [] (by decide) (by decide)
  refine ⟨by decide, hth.1, ?_, ?_⟩
  · rw [hth.2.1]
    rfl
  · rw [hth.2.2.2.2.1]
    rfl

/-! ## Claim C5 -/

/-- Claim C5, amended: `out_error` while `Connecting` classifies the
condition exactly as claimed, except that the 502 body carries a trailing
newline appended by the `reject(int, QString, QString)` overload
(lines 388-391): `Connect`/`ConnectTimeout`/`Tls` discard `outSock` and
attempt the next target (rejecting 502 when none remain); `Rejected`
forwards the origin response unchanged and terminates; anything else
rejects 502 "Bad Gateway" with body `"Error while proxying to origin.\n"`. -/
theorem c5_origin_error_connecting (s : SessionState) (cond : ErrorCondition)
    (code : Int) (reason : BString) (hdrs : List (BString × BString)) (body : BString)
    (hst : s.state = PState.Connecting) (hd : s.detached = false) :
    ((cond = .ErrorConnect ∨ cond = .ErrorConnectTimeout ∨ cond = .ErrorTls) →
      (∀ t ts, s.targets = t :: ts →
        (out_error s cond code reason hdrs body).targets = ts ∧
        (out_error s cond code reason hdrs body).connectAttempts =
          s.connectAttempts ++ [t] ∧
        (out_error s cond code reason hdrs body).outSock =
          some { readQueue := [], sstate := .SConnecting } ∧
        (out_error s cond code reason hdrs body).subChannel = t.subChannel ∧
        (out_error s cond code reason hdrs body).clientResponses = s.clientResponses) ∧
      (s.targets = [] →
        (out_error s cond code reason hdrs body).clientResponses =
          s.clientResponses ++ [ClientResponse.error 502 badGatewayReason [] proxyErrorBody] ∧
        (out_error s cond code reason hdrs body).state = PState.Closing)) ∧
    (cond = .ErrorRejected →
      (out_error s cond code reason hdrs body).clientResponses =
        s.clientResponses ++ [ClientResponse.error code reason hdrs body] ∧
      (out_error s cond code reason hdrs body).state = PState.Closing ∧
      (out_error s cond code reason hdrs body).outSock = none ∧
      (out_error s cond code reason hdrs body).connectAttempts = s.connectAttempts) ∧
    ((cond ≠ .ErrorConnect ∧ cond ≠ .ErrorConnectTimeout ∧ cond ≠ .ErrorTls ∧
        cond ≠ .ErrorRejected) →
      (out_error s cond code reason hdrs body).clientResponses =
        s.clientResponses ++ [ClientResponse.error 502 badGatewayReason [] proxyErrorBody] ∧
      (out_error s cond code reason hdrs body).state = PState.Closing ∧
      (out_error s cond code reason hdrs body).outSock = none) := by
  refine ⟨?_, ?_, ?_⟩
  · intro hc
    constructor
    · intro t ts hts
      rcases hc with hc | hc | hc <;>
        subst hc <;>
        simp [out_error, hd, hst, tryNextTarget, hts]
    · intro hts
      rcases hc with hc | hc | hc <;>
        subst hc <;>
        simp [out_error, hd, hst, tryNextTarget, hts, reject]
  · intro hc
    subst hc
    simp [out_error, hd, hst, reject]
  · intro hc
    obtain ⟨h1, h2, h3, h4⟩ := hc
    cases cond <;> first
      | exact absurd rfl h1
      | exact absurd rfl h2
      | exact absurd rfl h3
      | exact absurd rfl h4
      | simp [out_error, hd, hst, reject]

/-- Claim C5 fails only on the exact 502 body: the `reject` helper appends
a newline, so the client sees `"Error while proxying to origin.\n"`, not
`"Error while proxying to origin."`. -/
theorem c5_counterexample :
    sConn.state = PState.Connecting ∧
    (out_error sConn .ErrorGeneric 0 [] [] []).clientResponses =
      [ClientResponse.error 502 badGatewayReason [] proxyErrorBody] ∧
    proxyErrorBody ≠ "Error while proxying to origin.".toList := by decide

/-- Witness for `c5_origin_error_connecting`: a 401 rejection is forwarded
to the client unchanged and the session closes. -/
theorem c5_origin_error_connecting_witness :
    (out_error sConn .ErrorRejected 401 "Unauthorized".toList [] "nope".toList).clientResponses
      = [ClientResponse.error 401 "Unauthorized".toList [] "nope".toList] ∧
    (out_error sConn .ErrorRejected 401 "Unauthorized".toList [] "nope".toList).state
      = PState.Closing ∧
    (out_error sConn .ErrorRejected 401 "Unauthorized".toList [] "nope".toList).outSock
      = none := by
  have hth := (c5_origin_error_connecting sConn .ErrorRejected 401 "Unauthorized".toList
    [] "nope".toList (by decide) (by decide)).2.1 rfl
  refine ⟨?_, hth.2.1, hth.2.2.1⟩
  rw [hth.1]
  rfl

/-! ## Claim C8 -/

/-- Claim C8: a second consecutive detach event is a no-op — the slot
returns immediately once `detached` is set (lines 666-668), so two detach
deliveries yield exactly the state of one, and with it all subsequent
behaviour of the deterministic step function. -/
theorem c8_detach_idempotent (s : SessionState) :
    step Ev.evCtlDetachEvent (step Ev.evCtlDetachEvent s) = step Ev.evCtlDetachEvent s := by
  simp only [step]
  by_cases hd : s.detached = true
  · simp [wsControl_detachEventReceived, hd]
  · by_cases hns : sockNotClosing ({ s with detached := true } : SessionState).outSock = true <;>
      simp [wsControl_detachEventReceived, hd, hns, closeOut]

/-! ## Trace-level machinery (claims C2, C4, C9) -/

/-- Constant fields of `out_connected_core`. -/
theorem out_connected_core_invar (s : SessionState) (reason : BString)
    (hdrs : List (BString × BString)) :
    (out_connected_core s reason hdrs).inPending = s.inPending ∧
    (out_connected_core s reason hdrs).outPending = s.outPending ∧
    (out_connected_core s reason hdrs).detached = s.detached ∧
    (out_connected_core s reason hdrs).state = PState.Connected ∧
    (out_connected_core s reason hdrs).assertFailed = s.assertFailed ∧
    (out_connected_core s reason hdrs).outWrittenLog = s.outWrittenLog := by
  simp only [out_connected_core]
  by_cases hg : (getExtension (wsExtValues hdrs) gripName).isNull = true <;>
    by_cases hsub : (s.subChannel == ([] : BString)) = true <;>
      by_cases hmgr : s.wsControlManager = true <;>
        simp [hg, hsub, hmgr]

/-- `tryFinish` only touches `wsControl` and `finishedCount`. -/
theorem tryFinish_fields (s : SessionState) :
    (tryFinish s).state = s.state ∧
    (tryFinish s).inSock = s.inSock ∧
    (tryFinish s).outSock = s.outSock ∧
    (tryFinish s).inPending = s.inPending ∧
    (tryFinish s).outPending = s.outPending ∧
    (tryFinish s).detached = s.detached ∧
    (tryFinish s).outWrittenLog = s.outWrittenLog ∧
    (tryFinish s).inWrittenLog = s.inWrittenLog ∧
    (tryFinish s).gripSentLog = s.gripSentLog ∧
    (tryFinish s).clientResponses = s.clientResponses ∧
    (tryFinish s).assertFailed = s.assertFailed := by
  unfold tryFinish
  split <;> simp

/-- One valid event keeps both pending counters non-negative, keeps
`outPending` below the cap, and raises the `inPending` budget only on a
control `sendEvent`. -/
theorem pending_step (e : Ev) (s : SessionState) (c : Int)
    (hv : validEv e s = true) (hc : 0 ≤ c)
    (h1 : 0 ≤ s.inPending) (h2 : s.inPending ≤ 100 + c)
    (h3 : 0 ≤ s.outPending) (h4 : s.outPending ≤ 100) :
    0 ≤ (step e s).inPending ∧
    (step e s).inPending ≤ 100 + c + (sendCount [e] : Int) ∧
    0 ≤ (step e s).outPending ∧
    (step e s).outPending ≤ 100 := by
  have hPF : PENDING_FRAMES_MAX = (100 : Int) := rfl
  cases e with
  | evStart host entry =>
    cases entry with
    | none => simp [step, start, reject, sendCount]; omega
    | some en =>
      cases hts : en.targets with
      | nil => simp [step, start, tryNextTarget, reject, hts, sendCount]; omega
      | cons t ts => simp [step, start, tryNextTarget, hts, sendCount]; omega
  | evInReadyRead =>
    by_cases hg : (!s.detached &&
        (match s.outSock with
         | some o => o.sstate == SockPhase.SConnected
         | none => false)) = true
    · have hin := (tryReadIn_fields s).2.2.2.2.1
      have hout := tryReadIn_outPending s 100 (by omega) h4
      simp only [step, in_readyRead, hg, if_true, sendCount]
      omega
    · simp only [step, in_readyRead, hg, Bool.false_eq_true, if_false, sendCount]
      omega
  | evInFramesWritten n =>
    simp only [validEv, Bool.and_eq_true, decide_eq_true_eq] at hv
    obtain ⟨⟨hs, hn0⟩, hn⟩ := hv
    by_cases hd : s.detached = false
    · have hstep : step (Ev.evInFramesWritten n) s =
          tryReadOut { s with inPending := s.inPending - n } := by
        simp [step, in_framesWritten, hd]
      have hin := tryReadOut_inPending { s with inPending := s.inPending - n } (100 + c)
        (by omega) (by show s.inPending - n ≤ 100 + c; omega)
      have hout := (tryReadOut_fields { s with inPending := s.inPending - n }).2.2.2.2.1
      rw [hstep]
      simp only [sendCount]
      simp only [show ({ s with inPending := s.inPending - n } : SessionState).inPending =
        s.inPending - n from rfl] at hin
      simp only [show ({ s with inPending := s.inPending - n } : SessionState).outPending =
        s.outPending from rfl] at hout
      omega
    · have hd2 : s.detached = true := by
        cases hD : s.detached
        · exact absurd hD hd
        · rfl
      have hstep : step (Ev.evInFramesWritten n) s =
          { s with inPending := s.inPending - n } := by
        simp [step, in_framesWritten, hd2]
      rw [hstep]
      simp only [sendCount]
      refine ⟨by show (0 : Int) ≤ s.inPending - n; omega, ?_, ?_, ?_⟩
      · show s.inPending - n ≤ 100 + c + ((0 : Nat) : Int)
        omega
      · show (0 : Int) ≤ s.outPending
        omega
      · show s.outPending ≤ 100
        omega
  | evInPeerClosed =>
    by_cases hg : (!s.detached && sockNotClosing s.outSock) = true <;>
      simp [step, in_peerClosed, hg, closeOut, sendCount] <;> omega
  | evInClosed =>
    by_cases hg : (!s.detached && sockNotClosing s.outSock) = true <;>
      simp [step, in_closed, hg, closeOut, tryFinish_fields, sendCount] <;> omega
  | evInError =>
    by_cases hd : s.detached = true <;>
      simp [step, in_error, hd, tryFinish_fields, sendCount] <;> omega
  | evOutConnected reason hdrs =>
    have hcore := out_connected_core_invar s reason hdrs
    have hin := (tryReadIn_fields (out_connected_core s reason hdrs)).2.2.2.2.1
    have hout := tryReadIn_outPending (out_connected_core s reason hdrs) 100 (by omega)
      (by omega)
    simp only [step, out_connected, sendCount]
    omega
  | evOutReadyRead =>
    have hin := tryReadOut_inPending s (100 + c) (by omega) h2
    have hout := (tryReadOut_fields s).2.2.2.2.1
    simp only [step, out_readyRead, sendCount]
    omega
  | evOutFramesWritten n =>
    simp only [validEv, Bool.and_eq_true, decide_eq_true_eq] at hv
    obtain ⟨⟨hs, hn0⟩, hn⟩ := hv
    by_cases hd : s.detached = false
    · have hstep : step (Ev.evOutFramesWritten n) s =
          tryReadIn { s with outPending := s.outPending - n } := by
        simp [step, out_framesWritten, hd]
      have hout := tryReadIn_outPending { s with outPending := s.outPending - n } 100
        (by omega) (by show s.outPending - n ≤ 100; omega)
      have hin := (tryReadIn_fields { s with outPending := s.outPending - n }).2.2.2.2.1
      rw [hstep]
      simp only [sendCount]
      simp only [show ({ s with outPending := s.outPending - n } : SessionState).outPending =
        s.outPending - n from rfl] at hout
      simp only [show ({ s with outPending := s.outPending - n } : SessionState).inPending =
        s.inPending from rfl] at hin
      omega
    · have hd2 : s.detached = true := by
        cases hD : s.detached
        · exact absurd hD hd
        · rfl
      have hstep : step (Ev.evOutFramesWritten n) s =
          { s with outPending := s.outPending - n } := by
        simp [step, out_framesWritten, hd2]
      rw [hstep]
      simp only [sendCount]
      refine ⟨by show (0 : Int) ≤ s.inPending; omega, ?_, ?_, ?_⟩
      · show s.inPending ≤ 100 + c + ((0 : Nat) : Int)
        omega
      · show (0 : Int) ≤ s.outPending - n
        omega
      · show s.outPending - n ≤ 100
        omega
  | evOutPeerClosed =>
    by_cases hg : (!s.detached && sockNotClosing s.inSock) = true <;>
      simp [step, out_peerClosed, hg, closeIn, sendCount] <;> omega
  | evOutClosed =>
    by_cases hg : (!s.detached && sockNotClosing s.inSock) = true <;>
      simp [step, out_closed, hg, closeIn, tryFinish_fields, sendCount] <;> omega
  | evOutError cond code reason hdrs body =>
    by_cases hd : s.detached = true
    · simp [step, out_error, hd, tryFinish_fields, sendCount]
      omega
    · by_cases hst : (s.state == PState.Connecting) = true
      · cases cond <;>
          first
          | (cases hts : s.targets with
             | nil =>
               simp [step, out_error, hd, hst, tryNextTarget, reject, hts, sendCount]
               omega
             | cons t ts =>
               simp [step, out_error, hd, hst, tryNextTarget, hts, sendCount]
               omega)
          | (simp [step, out_error, hd, hst, reject, sendCount]; omega)
      · simp [step, out_error, hd, hst, tryFinish_fields, sendCount]
        omega
  | evCtlSendEvent ct msg =>
    cases his : s.inSock with
    | none => simp [step, wsControl_sendEventReceived, his, sendCount]; omega
    | some i =>
      by_cases hcl : (i.sstate == SockPhase.SClosing) = true <;>
        simp [step, wsControl_sendEventReceived, his, hcl, writeInFrame, sendCount] <;>
          omega
  | evCtlDetachEvent =>
    by_cases hd : s.detached = true
    · simp [step, wsControl_detachEventReceived, hd, sendCount]; omega
    · by_cases hns : sockNotClosing ({ s with detached := true } : SessionState).outSock = true <;>
        simp [step, wsControl_detachEventReceived, hd, hns, closeOut, sendCount] <;> omega
  | evArriveIn f =>
    simp [step, pushFrame, sendCount]
    omega
  | evArriveOut f =>
    simp [step, pushFrame, sendCount]
    omega

/-- The pending invariant propagated along a valid trace. -/
theorem pending_run (tr : List Ev) :
    ∀ (s : SessionState) (c : Int), validTrace s tr = true → 0 ≤ c →
      0 ≤ s.inPending → s.inPending ≤ 100 + c →
      0 ≤ s.outPending → s.outPending ≤ 100 →
      0 ≤ (runTrace s tr).inPending ∧
      (runTrace s tr).inPending ≤ 100 + c + (sendCount tr : Int) ∧
      0 ≤ (runTrace s tr).outPending ∧
      (runTrace s tr).outPending ≤ 100 := by
  induction tr with
  | nil =>
    intro s c _ hc h1 h2 h3 h4
    simp only [runTrace, sendCount]
    refine ⟨h1, by omega, h3, h4⟩
  | cons e es ih =>
    intro s c hv hc h1 h2 h3 h4
    simp only [validTrace, Bool.and_eq_true] at hv
    obtain ⟨hve, hvs⟩ := hv
    have hstep := pending_step e s c hve hc h1 h2 h3 h4
    have hrec := ih (step e s) (c + (sendCount [e] : Int)) hvs (by omega)
      hstep.1 (by have := hstep.2.1; omega) hstep.2.2.1 hstep.2.2.2
    simp only [runTrace]
    have hcount : (sendCount (e :: es) : Int) = (sendCount [e] : Int) + (sendCount es : Int) := by
      cases e <;> simp [sendCount] <;> omega
    omega

/-! ## Claim C2 -/

set_option maxRecDepth 40000 in
/-- Claim C2 fails: a valid trace (start, origin accept with GRIP forced by
the target's `subChannel`, then 101 control `sendEvent`s) drives
`inPending` to 101 — `wsControl_sendEventReceived` (lines 651-662)
increments `inPending` with no `PENDING_FRAMES_MAX` check. -/
theorem c2_counterexample :
    validTrace (initState true) cxTraceC2 = true ∧
    (runTrace (initState true) cxTraceC2).inPending = 101 ∧
    ¬(runTrace (initState true) cxTraceC2).inPending ≤ 100 := by
  refine ⟨by decide, by decide, by decide⟩

/-- Claim C2, amended: along every valid trace, both counters stay
non-negative, `outPending` never exceeds `PENDING_FRAMES_MAX = 100`, and
`inPending` never exceeds 100 plus the number of control `sendEvent`s
delivered (each such event may push it one past the cap, which only the
pump loops enforce). -/
theorem c2_pending_bounds (mgr : Bool) (tr : List Ev)
    (hv : validTrace (initState mgr) tr = true) :
    0 ≤ (runTrace (initState mgr) tr).inPending ∧
    (runTrace (initState mgr) tr).inPending ≤ 100 + (sendCount tr : Int) ∧
    0 ≤ (runTrace (initState mgr) tr).outPending ∧
    (runTrace (initState mgr) tr).outPending ≤ 100 := by
  have h := pending_run tr (initState mgr) 0 hv le_rfl (by simp [initState])
    (by simp [initState]) (by simp [initState]) (by simp [initState])
  simpa using h

/-- Witness for `c2_pending_bounds` on the concrete detach trace. -/
theorem c2_pending_bounds_witness :
    validTrace (initState true) trDetach = true ∧
    0 ≤ (runTrace (initState true) trDetach).inPending ∧
    (runTrace (initState true) trDetach).inPending ≤ 100 + (sendCount trDetach : Int) ∧
    0 ≤ (runTrace (initState true) trDetach).outPending ∧
    (runTrace (initState true) trDetach).outPending ≤ 100 :=
  ⟨by decide, c2_pending_bounds true trDetach (by decide)⟩

/-- No event can trip `reject`'s assertion: every call site of `reject`
runs with `state = Connecting`. -/
theorem step_assertFailed (e : Ev) (s : SessionState) :
    (step e s).assertFailed = s.assertFailed := by
  cases e with
  | evStart host entry =>
    cases entry with
    | none => simp [step, start, reject]
    | some en =>
      cases hts : en.targets with
      | nil => simp [step, start, tryNextTarget, reject, hts]
      | cons t ts => simp [step, start, tryNextTarget, hts]
  | evInReadyRead =>
    have h := (tryReadIn_fields s).2.2.2.2.2.2.2.2.2.2.2.2.2.2.2.2.1
    by_cases hg : (!s.detached &&
        (match s.outSock with
         | some o => o.sstate == SockPhase.SConnected
         | none => false)) = true <;>
      simp [step, in_readyRead, hg, h]
  | evInFramesWritten n =>
    by_cases hd : s.detached = true
    · have hstep : step (Ev.evInFramesWritten n) s =
          { s with inPending := s.inPending - n } := by
        simp [step, in_framesWritten, hd]
      rw [hstep]
    · have hd2 : s.detached = false := by
        cases hD : s.detached
        · rfl
        · exact absurd hD hd
      have hstep : step (Ev.evInFramesWritten n) s =
          tryReadOut { s with inPending := s.inPending - n } := by
        simp [step, in_framesWritten, hd2]
      rw [hstep,
        (tryReadOut_fields { s with inPending := s.inPending - n }).2.2.2.2.2.2.2.2.2.2.2.2.2.2.1]
  | evInPeerClosed =>
    by_cases hg : (!s.detached && sockNotClosing s.outSock) = true <;>
      simp [step, in_peerClosed, hg, closeOut]
  | evInClosed =>
    by_cases hg : (!s.detached && sockNotClosing s.outSock) = true <;>
      simp [step, in_closed, hg, closeOut, tryFinish_fields]
  | evInError =>
    by_cases hd : s.detached = true <;>
      simp [step, in_error, hd, tryFinish_fields]
  | evOutConnected reason hdrs =>
    have h1 := (tryReadIn_fields
      (out_connected_core s reason hdrs)).2.2.2.2.2.2.2.2.2.2.2.2.2.2.2.2.1
    have h2 := (out_connected_core_invar s reason hdrs).2.2.2.2.1
    simp [step, out_connected, h1, h2]
  | evOutReadyRead =>
    have h := (tryReadOut_fields s).2.2.2.2.2.2.2.2.2.2.2.2.2.2.1
    simp [step, out_readyRead, h]
  | evOutFramesWritten n =>
    by_cases hd : s.detached = true
    · have hstep : step (Ev.evOutFramesWritten n) s =
          { s with outPending := s.outPending - n } := by
        simp [step, out_framesWritten, hd]
      rw [hstep]
    · have hd2 : s.detached = false := by
        cases hD : s.detached
        · rfl
        · exact absurd hD hd
      have hstep : step (Ev.evOutFramesWritten n) s =
          tryReadIn { s with outPending := s.outPending - n } := by
        simp [step, out_framesWritten, hd2]
      rw [hstep,
        (tryReadIn_fields { s with outPending := s.outPending - n }).2.2.2.2.2.2.2.2.2.2.2.2.2.2.2.2.1]
  | evOutPeerClosed =>
    by_cases hg : (!s.detached && sockNotClosing s.inSock) = true <;>
      simp [step, out_peerClosed, hg, closeIn]
  | evOutClosed =>
    by_cases hg : (!s.detached && sockNotClosing s.inSock) = true <;>
      simp [step, out_closed, hg, closeIn, tryFinish_fields]
  | evOutError cond code reason hdrs body =>
    by_cases hd : s.detached = true
    · simp [step, out_error, hd, tryFinish_fields]
    · by_cases hst : (s.state == PState.Connecting) = true
      · have hst2 : s.state = PState.Connecting := by simpa using hst
        cases cond <;>
          first
          | (cases hts : s.targets with
             | nil => simp [step, out_error, hd, hst, tryNextTarget, reject, hts, hst2]
             | cons t ts => simp [step, out_error, hd, hst, tryNextTarget, hts])
          | simp [step, out_error, hd, hst, reject, hst2]
      · simp [step, out_error, hd, hst, tryFinish_fields]
  | evCtlSendEvent ct msg =>
    cases his : s.inSock with
    | none => simp [step, wsControl_sendEventReceived, his]
    | some i =>
      by_cases hcl : (i.sstate == SockPhase.SClosing) = true <;>
        simp [step, wsControl_sendEventReceived, his, hcl, writeInFrame]
  | evCtlDetachEvent =>
    by_cases hd : s.detached = true
    · simp [step, wsControl_detachEventReceived, hd]
    · by_cases hns : sockNotClosing ({ s with detached := true } : SessionState).outSock = true <;>
        simp [step, wsControl_detachEventReceived, hd, hns, closeOut]
  | evArriveIn f => simp [step, pushFrame]
  | evArriveOut f => simp [step, pushFrame]

/-- After the handshake (state `Connected` or `Closing`), no valid event
adds a client response: `respondError`/`respondSuccess` happen only while
`Connecting`. -/
theorem step_responses_post (e : Ev) (s : SessionState) (hv : validEv e s = true)
    (hst : s.state = PState.Connected ∨ s.state = PState.Closing) :
    (step e s).clientResponses = s.clientResponses := by
  cases e with
  | evStart host entry =>
    rcases hst with h | h <;> simp [validEv, h] at hv
  | evInReadyRead =>
    have h := (tryReadIn_fields s).2.2.2.2.2.2.2.2.2.2.2.2.2.1
    by_cases hg : (!s.detached &&
        (match s.outSock with
         | some o => o.sstate == SockPhase.SConnected
         | none => false)) = true <;>
      simp [step, in_readyRead, hg, h]
  | evInFramesWritten n =>
    by_cases hd : s.detached = true
    · have hstep : step (Ev.evInFramesWritten n) s =
          { s with inPending := s.inPending - n } := by
        simp [step, in_framesWritten, hd]
      rw [hstep]
    · have hd2 : s.detached = false := by
        cases hD : s.detached
        · rfl
        · exact absurd hD hd
      have hstep : step (Ev.evInFramesWritten n) s =
          tryReadOut { s with inPending := s.inPending - n } := by
        simp [step, in_framesWritten, hd2]
      rw [hstep,
        (tryReadOut_fields { s with inPending := s.inPending - n }).2.2.2.2.2.2.2.2.2.2.2.1]
  | evInPeerClosed =>
    by_cases hg : (!s.detached && sockNotClosing s.outSock) = true <;>
      simp [step, in_peerClosed, hg, closeOut]
  | evInClosed =>
    by_cases hg : (!s.detached && sockNotClosing s.outSock) = true <;>
      simp [step, in_closed, hg, closeOut, tryFinish_fields]
  | evInError =>
    by_cases hd : s.detached = true <;>
      simp [step, in_error, hd, tryFinish_fields]
  | evOutConnected reason hdrs =>
    rcases hst with h | h <;> simp [validEv, h] at hv
  | evOutReadyRead =>
    have h := (tryReadOut_fields s).2.2.2.2.2.2.2.2.2.2.2.1
    simp [step, out_readyRead, h]
  | evOutFramesWritten n =>
    by_cases hd : s.detached = true
    · have hstep : step (Ev.evOutFramesWritten n) s =
          { s with outPending := s.outPending - n } := by
        simp [step, out_framesWritten, hd]
      rw [hstep]
    · have hd2 : s.detached = false := by
        cases hD : s.detached
        · rfl
        · exact absurd hD hd
      have hstep : step (Ev.evOutFramesWritten n) s =
          tryReadIn { s with outPending := s.outPending - n } := by
        simp [step, out_framesWritten, hd2]
      rw [hstep,
        (tryReadIn_fields { s with outPending := s.outPending - n }).2.2.2.2.2.2.2.2.2.2.2.2.2.1]
  | evOutPeerClosed =>
    by_cases hg : (!s.detached && sockNotClosing s.inSock) = true <;>
      simp [step, out_peerClosed, hg, closeIn]
  | evOutClosed =>
    by_cases hg : (!s.detached && sockNotClosing s.inSock) = true <;>
      simp [step, out_closed, hg, closeIn, tryFinish_fields]
  | evOutError cond code reason hdrs body =>
    by_cases hd : s.detached = true
    · simp [step, out_error, hd, tryFinish_fields]
    · have hst2 : (s.state == PState.Connecting) = false := by
        rcases hst with h | h <;> simp [h]
      simp [step, out_error, hd, hst2, tryFinish_fields]
  | evCtlSendEvent ct msg =>
    cases his : s.inSock with
    | none => simp [step, wsControl_sendEventReceived, his]
    | some i =>
      by_cases hcl : (i.sstate == SockPhase.SClosing) = true <;>
        simp [step, wsControl_sendEventReceived, his, hcl, writeInFrame]
  | evCtlDetachEvent =>
    by_cases hd : s.detached = true
    · simp [step, wsControl_detachEventReceived, hd]
    · by_cases hns : sockNotClosing ({ s with detached := true } : SessionState).outSock = true <;>
        simp [step, wsControl_detachEventReceived, hd, hns, closeOut]
  | evArriveIn f => simp [step, pushFrame]
  | evArriveOut f => simp [step, pushFrame]

/-! ## Claim C9 -/

/-- Claim C9: along every valid trace from a fresh session, `reject`'s
`assert(state == Connecting)` never fires (every reject call site runs in
`Connecting`), and once the handshake is over (state `Connected` or
`Closing`) no valid event sends the client any further response — failures
release the transports silently. -/
theorem c9_reject_only_connecting (mgr : Bool) (tr : List Ev)
    (hv : validTrace (initState mgr) tr = true) :
    (runTrace (initState mgr) tr).assertFailed = false ∧
    (∀ e, validEv e (runTrace (initState mgr) tr) = true →
      ((runTrace (initState mgr) tr).state = PState.Connected ∨
        (runTrace (initState mgr) tr).state = PState.Closing) →
      (step e (runTrace (initState mgr) tr)).clientResponses =
        (runTrace (initState mgr) tr).clientResponses) := by
  constructor
  · have haux : ∀ (tr2 : List Ev) (s : SessionState),
        (runTrace s tr2).assertFailed = s.assertFailed := by
      intro tr2
      induction tr2 with
      | nil => intro s; rfl
      | cons e es ih =>
        intro s
        simp only [runTrace]
        rw [ih (step e s), step_assertFailed]
    rw [haux tr (initState mgr)]
    rfl
  · intro e hve hst
    exact step_responses_post e (runTrace (initState mgr) tr) hve hst

/-- Witness for `c9_reject_only_connecting` on the concrete detach trace,
with an origin frame arriving afterwards. -/
theorem c9_reject_only_connecting_witness :
    validTrace (initState true) trDetach = true ∧
    (runTrace (initState true) trDetach).assertFailed = false ∧
    (step (Ev.evArriveOut (Frame.mk FrameType.Text ['x'] false))
        (runTrace (initState true) trDetach)).clientResponses =
      (runTrace (initState true) trDetach).clientResponses :=
  ⟨by decide,
    (c9_reject_only_connecting true trDetach (by decide)).1,
    (c9_reject_only_connecting true trDetach (by decide)).2
      (Ev.evArriveOut (Frame.mk FrameType.Text ['x'] false)) (by decide) (by decide)⟩

/-! ## Claim C4 -/

/-- `GoodFlags` transfers along equal state and flags. -/
theorem goodFlags_mono {s t : SessionState} (hst : t.state = s.state)
    (hd : t.detached = s.detached) (hw : t.wsControl = true → s.wsControl = true)
    (hg : GoodFlags s) : GoodFlags t := by
  intro hOr
  rw [hst]
  rcases hOr with h | h
  · exact hg (Or.inl (hd ▸ h))
  · exact hg (Or.inr (hw h))

/-- `tryFinish` can only turn `wsControl` off. -/
theorem tryFinish_wsControl_imp (s : SessionState) :
    (tryFinish s).wsControl = true → s.wsControl = true := by
  unfold tryFinish
  split <;> simp

/-- Every valid event preserves `GoodFlags`. -/
theorem goodFlags_step (e : Ev) (s : SessionState) (hv : validEv e s = true)
    (hg : GoodFlags s) : GoodFlags (step e s) := by
  cases e with
  | evStart host entry =>
    simp only [validEv, Bool.and_eq_true] at hv
    have hsi : s.state = PState.Idle := by simpa using hv.2
    have hdf : s.detached = false := by
      cases hD : s.detached
      · rfl
      · rcases hg (Or.inl hD) with h | h <;> rw [hsi] at h <;> simp at h
    have hwf : s.wsControl = false := by
      cases hW : s.wsControl
      · rfl
      · rcases hg (Or.inr hW) with h | h <;> rw [hsi] at h <;> simp at h
    have hdet : (step (Ev.evStart host entry) s).detached = false := by
      cases entry with
      | none => simp [step, start, reject, hdf]
      | some en =>
        cases hts : en.targets with
        | nil => simp [step, start, tryNextTarget, reject, hts, hdf]
        | cons t ts => simp [step, start, tryNextTarget, hts, hdf]
    have hwc : (step (Ev.evStart host entry) s).wsControl = false := by
      cases entry with
      | none => simp [step, start, reject, hwf]
      | some en =>
        cases hts : en.targets with
        | nil => simp [step, start, tryNextTarget, reject, hts, hwf]
        | cons t ts => simp [step, start, tryNextTarget, hts, hwf]
    intro hOr
    rcases hOr with h | h
    · rw [hdet] at h
      simp at h
    · rw [hwc] at h
      simp at h
  | evInReadyRead =>
    have hf := tryReadIn_fields s
    by_cases hgd : (!s.detached &&
        (match s.outSock with
         | some o => o.sstate == SockPhase.SConnected
         | none => false)) = true
    · simp only [step, in_readyRead, hgd, if_true]
      exact goodFlags_mono hf.1 hf.2.2.2.2.2.2.2.2.2.1 (fun h => hf.2.2.2.1 ▸ h) hg
    · simp only [step, in_readyRead, hgd, Bool.false_eq_true, if_false]
      exact hg
  | evInFramesWritten n =>
    by_cases hd : s.detached = true
    · have hstep : step (Ev.evInFramesWritten n) s =
          { s with inPending := s.inPending - n } := by
        simp [step, in_framesWritten, hd]
      rw [hstep]
      exact goodFlags_mono rfl rfl (fun h => h) hg
    · have hd2 : s.detached = false := by
        cases hD : s.detached
        · rfl
        · exact absurd hD hd
      have hstep : step (Ev.evInFramesWritten n) s =
          tryReadOut { s with inPending := s.inPending - n } := by
        simp [step, in_framesWritten, hd2]
      rw [hstep]
      have hf := tryReadOut_fields { s with inPending := s.inPending - n }
      exact goodFlags_mono hf.1 hf.2.2.2.2.2.2.2.2.1 (fun h => hf.2.2.2.1 ▸ h) hg
  | evInPeerClosed =>
    by_cases hgd : (!s.detached && sockNotClosing s.outSock) = true <;>
      · first
        | (simp only [step, in_peerClosed, *, if_true]
           exact goodFlags_mono rfl rfl (fun h => h) hg)
        | (simp only [step, in_peerClosed, *, Bool.false_eq_true, if_false]
           exact hg)
  | evInClosed =>
    have himp := tryFinish_wsControl_imp
    by_cases hgd : (!(s.detached) = true && sockNotClosing { s with inSock := none }.outSock) = true
    all_goals
      refine goodFlags_mono ?_ ?_ ?_ hg <;>
        simp [step, in_closed, hgd, closeOut, tryFinish] <;> (repeat' split) <;> simp_all
  | evInError =>
    by_cases hd : s.detached = true
    all_goals
      refine goodFlags_mono ?_ ?_ ?_ hg <;>
        simp [step, in_error, hd, tryFinish] <;> (repeat' split) <;> simp_all
  | evOutConnected reason hdrs =>
    have hc := (out_connected_core_invar s reason hdrs).2.2.2.1
    have hf := (tryReadIn_fields (out_connected_core s reason hdrs)).1
    intro hOr
    left
    show (tryReadIn (out_connected_core s reason hdrs)).state = PState.Connected
    rw [hf, hc]
  | evOutReadyRead =>
    have hf := tryReadOut_fields s
    simp only [step, out_readyRead]
    exact goodFlags_mono hf.1 hf.2.2.2.2.2.2.2.2.1 (fun h => hf.2.2.2.1 ▸ h) hg
  | evOutFramesWritten n =>
    by_cases hd : s.detached = true
    · have hstep : step (Ev.evOutFramesWritten n) s =
          { s with outPending := s.outPending - n } := by
        simp [step, out_framesWritten, hd]
      rw [hstep]
      exact goodFlags_mono rfl rfl (fun h => h) hg
    · have hd2 : s.detached = false := by
        cases hD : s.detached
        · rfl
        · exact absurd hD hd
      have hstep : step (Ev.evOutFramesWritten n) s =
          tryReadIn { s with outPending := s.outPending - n } := by
        simp [step, out_framesWritten, hd2]
      rw [hstep]
      have hf := tryReadIn_fields { s with outPending := s.outPending - n }
      exact goodFlags_mono hf.1 hf.2.2.2.2.2.2.2.2.2.1 (fun h => hf.2.2.2.1 ▸ h) hg
  | evOutPeerClosed =>
    by_cases hgd : (!s.detached && sockNotClosing s.inSock) = true <;>
      · first
        | (simp only [step, out_peerClosed, *, if_true]
           exact goodFlags_mono rfl rfl (fun h => h) hg)
        | (simp only [step, out_peerClosed, *, Bool.false_eq_true, if_false]
           exact hg)
  | evOutClosed =>
    by_cases hgd : (!(s.detached) = true && sockNotClosing { s with outSock := none }.inSock) = true
    all_goals
      refine goodFlags_mono ?_ ?_ ?_ hg <;>
        simp [step, out_closed, hgd, closeIn, tryFinish] <;> (repeat' split) <;> simp_all
  | evOutError cond code reason hdrs body =>
    by_cases hd : s.detached = true
    · refine goodFlags_mono ?_ ?_ ?_ hg <;>
        simp [step, out_error, hd, tryFinish] <;> (repeat' split) <;> simp_all
    · by_cases hst : (s.state == PState.Connecting) = true
      · have hst2 : s.state = PState.Connecting := by simpa using hst
        have hdf : s.detached = false := by
          cases hD : s.detached
          · rfl
          · exact absurd hD hd
        have hwf : s.wsControl = false := by
          cases hW : s.wsControl
          · rfl
          · rcases hg (Or.inr hW) with h | h <;> rw [hst2] at h <;> simp at h
        have hdet : (step (Ev.evOutError cond code reason hdrs body) s).detached = false := by
          cases cond <;>
            first
            | (cases hts : s.targets with
               | nil => simp [step, out_error, hd, hst, tryNextTarget, reject, hts, hdf]
               | cons t ts => simp [step, out_error, hd, hst, tryNextTarget, hts, hdf])
            | simp [step, out_error, hd, hst, reject, hdf]
        have hwc : (step (Ev.evOutError cond code reason hdrs body) s).wsControl = false := by
          cases cond <;>
            first
            | (cases hts : s.targets with
               | nil => simp [step, out_error, hd, hst, tryNextTarget, reject, hts, hwf]
               | cons t ts => simp [step, out_error, hd, hst, tryNextTarget, hts, hwf])
            | simp [step, out_error, hd, hst, reject, hwf]
        intro hOr
        rcases hOr with h | h
        · rw [hdet] at h
          simp at h
        · rw [hwc] at h
          simp at h
      · refine goodFlags_mono ?_ ?_ ?_ hg <;>
          simp [step, out_error, hd, hst, tryFinish] <;> (repeat' split) <;> simp_all
  | evCtlSendEvent ct msg =>
    cases his : s.inSock with
    | none =>
      simp only [step, wsControl_sendEventReceived, his]
      exact hg
    | some i =>
      by_cases hcl : (i.sstate == SockPhase.SClosing) = true
      · simp only [step, wsControl_sendEventReceived, his, hcl, Bool.not_true,
          Bool.false_eq_true, if_false]
        exact hg
      · refine goodFlags_mono ?_ ?_ ?_ hg <;>
          simp [step, wsControl_sendEventReceived, his, hcl, writeInFrame]
  | evCtlDetachEvent =>
    have hwct : s.wsControl = true := by simpa [validEv] using hv
    have hst := hg (Or.inr hwct)
    have hstep : (step Ev.evCtlDetachEvent s).state = s.state := by
      by_cases hd : s.detached = true
      · simp [step, wsControl_detachEventReceived, hd]
      · by_cases hns :
            sockNotClosing ({ s with detached := true } : SessionState).outSock = true <;>
          simp [step, wsControl_detachEventReceived, hd, hns, closeOut]
    intro _
    rw [hstep]
    exact hst
  | evArriveIn f =>
    refine goodFlags_mono ?_ ?_ ?_ hg <;> simp [step, pushFrame]
  | evArriveOut f =>
    refine goodFlags_mono ?_ ?_ ?_ hg <;> simp [step, pushFrame]

/-- `GoodFlags` holds along every valid trace. -/
theorem goodFlags_run (tr : List Ev) : ∀ (s : SessionState),
    validTrace s tr = true → GoodFlags s → GoodFlags (runTrace s tr) := by
  induction tr with
  | nil => intro s _ hg; exact hg
  | cons e es ih =>
    intro s hv hg
    simp only [validTrace, Bool.and_eq_true] at hv
    exact ih (step e s) hv.2 (goodFlags_step e s hv.1 hg)

/-- Once detached, no valid event writes to `outSock` or sends a grip
message, and the detached flag persists. -/
theorem detached_step (e : Ev) (s : SessionState) (hv : validEv e s = true)
    (hd : s.detached = true) (hg : GoodFlags s) :
    (step e s).outWrittenLog = s.outWrittenLog ∧
    (step e s).gripSentLog = s.gripSentLog ∧
    (step e s).detached = true := by
  cases e with
  | evStart host entry =>
    simp only [validEv, Bool.and_eq_true] at hv
    have hsi : s.state = PState.Idle := by simpa using hv.2
    rcases hg (Or.inl hd) with h | h <;> rw [hsi] at h <;> simp at h
  | evInReadyRead =>
    have hgd : (!s.detached &&
        (match s.outSock with
         | some o => o.sstate == SockPhase.SConnected
         | none => false)) = false := by simp [hd]
    simp [step, in_readyRead, hgd, hd]
  | evInFramesWritten n =>
    have hstep : step (Ev.evInFramesWritten n) s =
        { s with inPending := s.inPending - n } := by
      simp [step, in_framesWritten, hd]
    rw [hstep]
    exact ⟨rfl, rfl, hd⟩
  | evInPeerClosed =>
    have hgd : (!s.detached && sockNotClosing s.outSock) = false := by simp [hd]
    simp [step, in_peerClosed, hgd, hd]
  | evInClosed =>
    have hstep : step Ev.evInClosed s =
        tryFinish ({ s with inSock := none } : SessionState) := by
      simp [step, in_closed, hd]
    have hf := tryFinish_fields ({ s with inSock := none } : SessionState)
    rw [hstep]
    refine ⟨?_, ?_, ?_⟩
    · rw [hf.2.2.2.2.2.2.1]
    · rw [hf.2.2.2.2.2.2.2.2.1]
    · rw [hf.2.2.2.2.2.1]
      exact hd
  | evInError =>
    have hstep : step Ev.evInError s =
        tryFinish ({ s with inSock := none } : SessionState) := by
      simp [step, in_error, hd]
    have hf := tryFinish_fields ({ s with inSock := none } : SessionState)
    rw [hstep]
    refine ⟨?_, ?_, ?_⟩
    · rw [hf.2.2.2.2.2.2.1]
    · rw [hf.2.2.2.2.2.2.2.2.1]
    · rw [hf.2.2.2.2.2.1]
      exact hd
  | evOutConnected reason hdrs =>
    simp only [validEv, Bool.and_eq_true] at hv
    have hsc : s.state = PState.Connecting := by simpa using hv.2
    rcases hg (Or.inl hd) with h | h <;> rw [hsc] at h <;> simp at h
  | evOutReadyRead =>
    have h1 := (tryReadOut_fields s).2.2.2.2.2.2.2.2.2.2.1
    have h2 := (tryReadOut_detached s hd).2.1
    have h3 := (tryReadOut_fields s).2.2.2.2.2.2.2.2.1
    simp only [step, out_readyRead]
    exact ⟨h1, h2, h3 ▸ hd⟩
  | evOutFramesWritten n =>
    have hstep : step (Ev.evOutFramesWritten n) s =
        { s with outPending := s.outPending - n } := by
      simp [step, out_framesWritten, hd]
    rw [hstep]
    exact ⟨rfl, rfl, hd⟩
  | evOutPeerClosed =>
    have hgd : (!s.detached && sockNotClosing s.inSock) = false := by simp [hd]
    simp [step, out_peerClosed, hgd, hd]
  | evOutClosed =>
    have hstep : step Ev.evOutClosed s =
        tryFinish ({ s with outSock := none } : SessionState) := by
      simp [step, out_closed, hd]
    have hf := tryFinish_fields ({ s with outSock := none } : SessionState)
    rw [hstep]
    refine ⟨?_, ?_, ?_⟩
    · rw [hf.2.2.2.2.2.2.1]
    · rw [hf.2.2.2.2.2.2.2.2.1]
    · rw [hf.2.2.2.2.2.1]
      exact hd
  | evOutError cond code reason hdrs body =>
    have hstep : step (Ev.evOutError cond code reason hdrs body) s =
        tryFinish ({ s with outSock := none } : SessionState) := by
      simp [step, out_error, hd]
    have hf := tryFinish_fields ({ s with outSock := none } : SessionState)
    rw [hstep]
    refine ⟨?_, ?_, ?_⟩
    · rw [hf.2.2.2.2.2.2.1]
    · rw [hf.2.2.2.2.2.2.2.2.1]
    · rw [hf.2.2.2.2.2.1]
      exact hd
  | evCtlSendEvent ct msg =>
    cases his : s.inSock with
    | none => simp [step, wsControl_sendEventReceived, his, hd]
    | some i =>
      by_cases hcl : (i.sstate == SockPhase.SClosing) = true <;>
        simp [step, wsControl_sendEventReceived, his, hcl, writeInFrame, hd]
  | evCtlDetachEvent => simp [step, wsControl_detachEventReceived, hd]
  | evArriveIn f => simp [step, pushFrame, hd]
  | evArriveOut f => simp [step, pushFrame, hd]

/-- Along any valid continuation of a detached session, the `outSock` and
grip logs never grow. -/
theorem detached_run (tr : List Ev) : ∀ (s : SessionState),
    validTrace s tr = true → s.detached = true → GoodFlags s →
    (runTrace s tr).outWrittenLog = s.outWrittenLog ∧
    (runTrace s tr).gripSentLog = s.gripSentLog ∧
    (runTrace s tr).detached = true := by
  induction tr with
  | nil => intro s _ hd _; exact ⟨rfl, rfl, hd⟩
  | cons e es ih =>
    intro s hv hd hg
    simp only [validTrace, Bool.and_eq_true] at hv
    have hs := detached_step e s hv.1 hd hg
    have hrec := ih (step e s) hv.2 hs.2.2 (goodFlags_step e s hv.1 hg)
    simp only [runTrace]
    exact ⟨hrec.1.trans hs.1, hrec.2.1.trans hs.2.1, hrec.2.2⟩

/-- Claim C4: once a detach event has been received (so `detached` is set
on the reachable state), no frame is ever written to `outSock` again and
nothing further reaches the control session over any valid continuation;
both pumps discard every frame they read (`processOutFrame` and
`processInFrame` act as the identity); and a control `sendEvent` still
delivers its frame to the client whenever the client socket is open. -/
theorem c4_detach_semantics (mgr : Bool) (tr : List Ev)
    (hv : validTrace (initState mgr) tr = true)
    (hd : (runTrace (initState mgr) tr).detached = true) :
    (∀ tr2, validTrace (runTrace (initState mgr) tr) tr2 = true →
      (runTrace (runTrace (initState mgr) tr) tr2).outWrittenLog =
        (runTrace (initState mgr) tr).outWrittenLog ∧
      (runTrace (runTrace (initState mgr) tr) tr2).gripSentLog =
        (runTrace (initState mgr) tr).gripSentLog) ∧
    (∀ f, processOutFrame (runTrace (initState mgr) tr) f = runTrace (initState mgr) tr ∧
      processInFrame (runTrace (initState mgr) tr) f = runTrace (initState mgr) tr) ∧
    (∀ ct msg i, (runTrace (initState mgr) tr).inSock = some i →
      ¬i.sstate = SockPhase.SClosing →
      wsControl_sendEventReceived (runTrace (initState mgr) tr) ct msg =
        writeInFrame (runTrace (initState mgr) tr)
          (Frame.mk (if ct == binaryCT then FrameType.Binary else FrameType.Text) msg false)) := by
  have hg : GoodFlags (runTrace (initState mgr) tr) :=
    goodFlags_run tr (initState mgr) hv (by intro h; rcases h with h | h <;> simp [initState] at h)
  refine ⟨?_, ?_, ?_⟩
  · intro tr2 hv2
    have h := detached_run tr2 (runTrace (initState mgr) tr) hv2 hd hg
    exact ⟨h.1, h.2.1⟩
  · intro f
    exact ⟨processOutFrame_detached _ f hd, processInFrame_detached _ f hd⟩
  · intro ct msg i his hcl
    simp [wsControl_sendEventReceived, his, hcl]

/-- Witness for `c4_detach_semantics`: after the detach trace, an arriving
origin frame pumped by `out_readyRead` writes nothing to either peer. -/
theorem c4_detach_semantics_witness :
    validTrace (initState true) trDetach = true ∧
    (runTrace (initState true) trDetach).detached = true ∧
    (runTrace (runTrace (initState true) trDetach)
        [Ev.evArriveOut (Frame.mk FrameType.Text ['m', ':', 'x'] false), Ev.evOutReadyRead]).outWrittenLog =
      (runTrace (initState true) trDetach).outWrittenLog ∧
    (runTrace (runTrace (initState true) trDetach)
        [Ev.evArriveOut (Frame.mk FrameType.Text ['m', ':', 'x'] false), Ev.evOutReadyRead]).gripSentLog =
      (runTrace (initState true) trDetach).gripSentLog :=
  ⟨by decide, by decide,
    ((c4_detach_semantics true trDetach (by decide) (by decide)).1
      [Ev.evArriveOut (Frame.mk FrameType.Text ['m', ':', 'x'] false), Ev.evOutReadyRead]
      (by decide)).1,
    ((c4_detach_semantics true trDetach (by decide) (by decide)).1
      [Ev.evArriveOut (Frame.mk FrameType.Text ['m', ':', 'x'] false), Ev.evOutReadyRead]
      (by decide)).2⟩

end WsProxy